import Mathlib
set_option maxHeartbeats 1000000

/-- Exact model of a Python float as an unreduced fraction num / den.
Every float the pipeline builds has a power-of-ten denominator (from decimal
parsing) or a product of such, so the denominator type is the positive
naturals. Using an unreduced pair keeps all arithmetic in plain integer
operations. -/
structure PFloat where
  num : ℤ
  den : ℕ+
  deriving DecidableEq

/-- The float 0.0. -/
def pfZero : PFloat := ⟨0, 1⟩

/-- A float holding an integer value. -/
def pfOfInt (n : ℤ) : PFloat := ⟨n, 1⟩

/-- Float multiplication. -/
def pfMul (a b : PFloat) : PFloat := ⟨a.num * b.num, a.den * b.den⟩

/-- Whether a float is strictly negative (denominators are positive). -/
def pfIsNeg (a : PFloat) : Bool := decide (a.num < 0)

/-- Whether a float is exactly zero. -/
def pfIsZero (a : PFloat) : Bool := a.num == 0

/-- Numeric equality of two fractions by cross-multiplication. -/
def pfEq (a b : PFloat) : Bool := decide (a.num * ((b.den : ℕ) : ℤ) = b.num * ((a.den : ℕ) : ℤ))

/-- Numeric strict order of two fractions by cross-multiplication. -/
def pfLt (a b : PFloat) : Bool := decide (a.num * ((b.den : ℕ) : ℤ) < b.num * ((a.den : ℕ) : ℤ))

/-- Mathematical floor of a fraction (integer division rounding down). -/
def pfFloor (a : PFloat) : ℤ := Int.fdiv a.num ((a.den : ℕ) : ℤ)

/-- Truncation toward zero, the behaviour of Python int() on a float. -/
def pfTrunc (a : PFloat) : ℤ := Int.tdiv a.num ((a.den : ℕ) : ℤ)

/-- Round a fraction to the nearest integer, ties to even, as Python round()
does on exact halves. -/
def roundHalfEven (a : PFloat) : ℤ :=
  let f := pfFloor a
  let r2 := 2 * (a.num - f * ((a.den : ℕ) : ℤ))
  if r2 < ((a.den : ℕ) : ℤ) then f else if ((a.den : ℕ) : ℤ) < r2 then f + 1
  else if f % 2 = 0 then f else f + 1

/-- Python round(x, 2): round x * 100 to the nearest integer and present the
result over denominator 100. -/
def round2 (a : PFloat) : PFloat := ⟨roundHalfEven ⟨a.num * 100, a.den⟩, 100⟩

/-- Shallow embedding of the Python values that flow through the ETL rows:
None, strings, ints, floats, and lists of strings (anomaly-flag lists). -/
inductive PyVal where
  | none
  | str (s : String)
  | int (n : ℤ)
  | float (f : PFloat)
  | list (l : List String)
  deriving DecidableEq

/-- Python truthiness of a value, as used by the row.get(...) guards in
validate_row (None, empty string, zero and empty list are falsy). -/
def truthy : PyVal → Bool
  | .none => false
  | .str s => s != ""
  | .int n => n != 0
  | .float f => !pfIsZero f
  | .list l => l != []

/-- Python equality between values as used for dict-key identity
(an int and a float compare equal when they denote the same number). -/
def pyEq : PyVal → PyVal → Bool
  | .none, .none => true
  | .str a, .str b => decide (a = b)
  | .int a, .int b => decide (a = b)
  | .float a, .float b => pfEq a b
  | .int a, .float b => decide (a * ((b.den : ℕ) : ℤ) = b.num)
  | .float a, .int b => decide (a.num = b * ((a.den : ℕ) : ℤ))
  | .list a, .list b => decide (a = b)
  | _, _ => false

/-- A Python dict of row fields, in insertion order (keys unique in practice). -/
abbrev Row := List (String × PyVal)

/-- Dict lookup: some value when the key is present, none when indexing it
would raise KeyError. -/
def rget : Row → String → Option PyVal
  | [], _ => Option.none
  | (k, v) :: t, key => if k = key then some v else rget t key

/-- Python row.get(key) with default None. -/
def pyGet (r : Row) (key : String) : PyVal := (rget r key).getD .none

/-- Python row.get(key, d). -/
def pyGetD (r : Row) (key : String) (d : PyVal) : PyVal := (rget r key).getD d

/-- Dict assignment row[key] = v: updates the key in place when present,
otherwise appends it (Python dict insertion-order semantics). -/
def rset : Row → String → PyVal → Row
  | [], key, v => [(key, v)]
  | (k, w) :: t, key, v => if k = key then (key, v) :: t else (k, w) :: rset t key v

/-- Whether a key is present in a row. -/
def hasKey (r : Row) (key : String) : Bool := (rget r key).isSome

/-- Numeric value of a run of decimal digit characters. -/
def digitsVal (cs : List Char) : ℕ := cs.foldl (fun a c => a * 10 + (c.toNat - 48)) 0

/-- Whitespace characters stripped by Python numeric conversions. -/
def isSp (c : Char) : Bool := c == ' ' || c == '\t' || c == '\n' || c == '\r'

/-- Strip leading and trailing whitespace. -/
def trimChars (cs : List Char) : List Char :=
  ((cs.dropWhile isSp).reverse.dropWhile isSp).reverse

/-- Optional leading sign of a numeric literal. -/
def splitSign : List Char → ℤ × List Char
  | '-' :: t => (-1, t)
  | '+' :: t => (1, t)
  | cs => (1, cs)

/-- Model of Python float() applied to a string: an optional sign followed by
a decimal literal (digits with an optional fractional part). Returns none when
the string is not a valid float literal, modelling the ValueError path. -/
def parseDec (cs0 : List Char) : Option PFloat :=
  let cs1 := trimChars cs0
  let sgncs := splitSign cs1
  let ip := sgncs.2.takeWhile Char.isDigit
  let rest := sgncs.2.dropWhile Char.isDigit
  match rest with
  | [] => if ip.isEmpty then Option.none else some ⟨sgncs.1 * (digitsVal ip : ℤ), 1⟩
  | '.' :: fp =>
    if fp.all Char.isDigit && !(ip.isEmpty && fp.isEmpty) then
      some ⟨sgncs.1 * ((digitsVal ip : ℤ) * (10 : ℤ) ^ fp.length + (digitsVal fp : ℤ)), 10 ^ fp.length⟩
    else Option.none
  | _ => Option.none

/-- Model of Python int() applied to a string: an optional sign followed by
digits only (so a string with a decimal point is a ValueError, i.e. none). -/
def parseIntChars (cs0 : List Char) : Option ℤ :=
  let cs1 := trimChars cs0
  let sgncs := splitSign cs1
  if !sgncs.2.isEmpty && sgncs.2.all Char.isDigit then
    some (sgncs.1 * (digitsVal sgncs.2 : ℤ))
  else Option.none

/-- Python float(v): succeeds on numbers and valid numeric strings; None and
lists raise TypeError (none). -/
def pyFloat : PyVal → Option PFloat
  | .str s => parseDec s.toList
  | .int n => some (pfOfInt n)
  | .float f => some f
  | _ => Option.none

/-- Python int(v): succeeds on numbers (floats truncate toward zero) and
integer-literal strings; None and lists raise TypeError (none). -/
def pyInt : PyVal → Option ℤ
  | .str s => parseIntChars s.toList
  | .int n => some n
  | .float f => some (pfTrunc f)
  | _ => Option.none

/-- Numeric view of a value for Python order comparisons; comparing a
non-number with a number raises TypeError (none). -/
def toNum : PyVal → Option PFloat
  | .int n => some (pfOfInt n)
  | .float f => some f
  | _ => Option.none

/-- Month abbreviations recognised by the strptime directive for abbreviated
month names (matched case-insensitively). -/
def monthAbbrevs : List String :=
  ["jan", "feb", "mar", "apr", "may", "jun", "jul", "aug", "sep", "oct", "nov", "dec"]

/-- Days in a month of a given year, with Gregorian leap years. -/
def daysInMonth (y m : ℕ) : ℕ :=
  if m == 2 then (if y % 4 == 0 && (y % 100 != 0 || y % 400 == 0) then 29 else 28)
  else if m == 4 || m == 6 || m == 9 || m == 11 then 30 else 31

/-- Whether a year-month-day triple is a valid datetime date. -/
def validYMD (y m d : ℕ) : Bool :=
  decide (1 ≤ y ∧ y ≤ 9999 ∧ 1 ≤ m ∧ m ≤ 12 ∧ 1 ≤ d ∧ d ≤ daysInMonth y m)

/-- Split a character list on a separator character. -/
def splitCharGo (c : Char) : List Char → List Char → List (List Char)
  | [], cur => [cur.reverse]
  | x :: xs, cur => if x == c then cur.reverse :: splitCharGo c xs [] else splitCharGo c xs (x :: cur)

/-- A numeric date field of bounded width. -/
def numField (cs : List Char) (maxLen : ℕ) : Option ℕ :=
  if !cs.isEmpty && decide (cs.length ≤ maxLen) && cs.all Char.isDigit then
    some (digitsVal cs)
  else Option.none

/-- strptime against the ISO year-month-day format. -/
def parseISO (cs : List Char) : Option (ℕ × ℕ × ℕ) := do
  match splitCharGo '-' cs [] with
  | [ys, ms, ds] =>
    let y ← numField ys 4
    let m ← numField ms 2
    let d ← numField ds 2
    if validYMD y m d then some (y, m, d) else Option.none
  | _ => Option.none

/-- strptime against the day/month/year format. -/
def parseDMY (cs : List Char) : Option (ℕ × ℕ × ℕ) := do
  match splitCharGo '/' cs [] with
  | [ds, ms, ys] =>
    let d ← numField ds 2
    let m ← numField ms 2
    let y ← numField ys 4
    if validYMD y m d then some (y, m, d) else Option.none
  | _ => Option.none

/-- strptime against the month-day-year format. -/
def parseMDY (cs : List Char) : Option (ℕ × ℕ × ℕ) := do
  match splitCharGo '-' cs [] with
  | [ms, ds, ys] =>
    let m ← numField ms 2
    let d ← numField ds 2
    let y ← numField ys 4
    if validYMD y m d then some (y, m, d) else Option.none
  | _ => Option.none

/-- strptime against the abbreviated-month day year format. -/
def parseBDY (cs : List Char) : Option (ℕ × ℕ × ℕ) := do
  match splitCharGo ' ' cs [] with
  | [bs, ds, ys] =>
    let mi ← List.findIdx? (· == String.mk (bs.map Char.toLower)) monthAbbrevs
    let d ← numField ds 2
    let y ← numField ys 4
    if validYMD y (mi + 1) d then some (y, mi + 1, d) else Option.none
  | _ => Option.none

/-- The ordered date-format fallback of validate_row: the first format that
parses wins; a non-string value fails every strptime call with TypeError. -/
def tryParseDate : PyVal → Option (ℕ × ℕ × ℕ)
  | .str s =>
    (parseISO s.toList).orElse fun _ =>
      (parseDMY s.toList).orElse fun _ =>
        (parseMDY s.toList).orElse fun _ => parseBDY s.toList
  | _ => Option.none

/-- Zero-padded decimal rendering of a number, width w. -/
def padNum (w n : ℕ) : String :=
  String.mk (List.replicate (w - (Nat.repr n).length) '0') ++ Nat.repr n

/-- strftime of a date to canonical ISO year-month-day form. -/
def fmtISO (ymd : ℕ × ℕ × ℕ) : String :=
  padNum 4 ymd.1 ++ "-" ++ padNum 2 ymd.2.1 ++ "-" ++ padNum 2 ymd.2.2

/-- Outcome of validate_row: raised models an uncaught exception (a KeyError
from indexing a missing key); rejected models the ok=False returns; accepted
carries the cleaned row and the auto-correction issue list. -/
inductive ValidateResult where
  | raised
  | rejected (issues : List String)
  | accepted (cleaned : Row) (issues : List String)
  deriving DecidableEq

/-- The email block of validate_row: a falsy email is auto-filled with the
placeholder address and recorded as the missing_email issue; the pair is the
cleaned row so far and the issue list so far. -/
def emailStep (row : Row) : Row × List String :=
  if !truthy (pyGet row "email") then
    (rset row "email" (.str "unknown@placeholder.com"), ["missing_email"])
  else (row, [])

/-- The quantity auto-correction of validate_row: a parsed quantity of at
most zero becomes 1 and the invalid_quantity issue is appended. -/
def quantityAdjust (q0 : ℤ) (issues0 : List String) : ℤ × List String :=
  if q0 ≤ 0 then (1, issues0 ++ ["invalid_quantity"]) else (q0, issues0)

/-- The unit_price block of validate_row: a falsy price (absent, empty, or
zero-valued) is taken as 0.0 without float-parsing; otherwise float() runs
and ValueError or TypeError is the fatal invalid_price_type path (none); a
negative price is corrected to 0.0 with issue negative_price, and an exact
zero (including the falsy path) is flagged zero_price. -/
def priceStep (row : Row) (issues1 : List String) : Option (PFloat × List String) :=
  if truthy (pyGet row "unit_price") then
    match pyFloat (pyGet row "unit_price") with
    | Option.none => Option.none
    | some p0 =>
      if pfIsNeg p0 then some (pfZero, issues1 ++ ["negative_price"])
      else if pfIsZero p0 then some (p0, issues1 ++ ["zero_price"])
      else some (p0, issues1)
  else some (pfZero, issues1 ++ ["zero_price"])

/-- Embedding of transformer.validate_row. Required-field checks for order_id
and product_id short-circuit; missing email is auto-filled; quantity is parsed
with int() inside a try that catches ValueError and TypeError only, so a row
whose field map lacks the quantity key raises KeyError (raised); unit_price
follows priceStep; the order_date is indexed directly (KeyError when absent)
and parsed against the four formats; total is derived last from the cleaned
quantity and unit_price. -/
def validate_row (row : Row) : ValidateResult :=
  if !truthy (pyGet row "order_id") then .rejected ["missing_order_id"]
  else if !truthy (pyGet row "product_id") then .rejected ["missing_product_id"]
  else
  match rget row "quantity" with
  | Option.none => .raised
  | some qv =>
    match pyInt qv with
    | Option.none => .rejected ["invalid_quantity_type"]
    | some q0 =>
      let qi := quantityAdjust q0 (emailStep row).2
      let cleaned1 := rset (emailStep row).1 "quantity" (.int qi.1)
      match priceStep row qi.2 with
      | Option.none => .rejected ["invalid_price_type"]
      | some pi2 =>
        let cleaned2 := rset cleaned1 "unit_price" (.float pi2.1)
        match rget row "order_date" with
        | Option.none => .raised
        | some dv =>
          match tryParseDate dv with
          | Option.none => .rejected ["unparseable_date"]
          | some ymd =>
            let cleaned3 := rset cleaned2 "order_date" (.str (fmtISO ymd))
            .accepted (rset cleaned3 "total" (.float (round2 (pfMul (pfOfInt qi.1) pi2.1)))) pi2.2

/-- A raw row that validates cleanly, carrying a bogus input total that
validation must overwrite. -/
def sampleRow : Row :=
  [("order_id", .str "SO-1001"), ("customer_name", .str "Ann Lee"),
   ("email", .str "ann@example.com"), ("product_id", .str "P-100"),
   ("quantity", .str "2"), ("unit_price", .str "19.99"),
   ("order_date", .str "2024-01-05"), ("payment_method", .str "card"),
   ("total", .str "999")]

/-- The cleaned record validate_row produces for sampleRow. -/
def sampleClean : Row :=
  [("order_id", .str "SO-1001"), ("customer_name", .str "Ann Lee"),
   ("email", .str "ann@example.com"), ("product_id", .str "P-100"),
   ("quantity", .int 2), ("unit_price", .float ⟨1999, 100⟩),
   ("order_date", .str "2024-01-05"), ("payment_method", .str "card"),
   ("total", .float ⟨3998, 100⟩)]

/-- A raw row with no unit_price field at all. -/
def rowNoPrice : Row :=
  [("order_id", .str "SO-2001"), ("product_id", .str "P-200"),
   ("email", .str "b@c.com"), ("quantity", .str "3"), ("order_date", .str "2024-02-10")]

/-- The cleaned record for rowNoPrice: price 0.0, appended after the keys of
the input, with the zero_price issue recorded. -/
def rowNoPriceClean : Row :=
  [("order_id", .str "SO-2001"), ("product_id", .str "P-200"),
   ("email", .str "b@c.com"), ("quantity", .int 3), ("order_date", .str "2024-02-10"),
   ("unit_price", .float pfZero), ("total", .float ⟨0, 100⟩)]

/-- A raw row whose unit_price is a non-numeric string. -/
def rowBadPrice : Row :=
  [("order_id", .str "SO-2002"), ("product_id", .str "P-200"),
   ("email", .str "b@c.com"), ("quantity", .str "1"), ("unit_price", .str "abc"),
   ("order_date", .str "2024-02-10")]

/-- A raw row with a negative unit_price. -/
def rowNegPrice : Row :=
  [("order_id", .str "SO-2003"), ("product_id", .str "P-200"),
   ("email", .str "b@c.com"), ("quantity", .str "1"), ("unit_price", .str "-2.5"),
   ("order_date", .str "2024-02-10")]

/-- The cleaned record for rowNegPrice: price corrected to 0.0. -/
def rowNegPriceClean : Row :=
  [("order_id", .str "SO-2003"), ("product_id", .str "P-200"),
   ("email", .str "b@c.com"), ("quantity", .int 1), ("unit_price", .float pfZero),
   ("order_date", .str "2024-02-10"), ("total", .float ⟨0, 100⟩)]

/-- A raw row with an exactly-zero unit_price written as a nonempty string. -/
def rowZeroPrice : Row :=
  [("order_id", .str "SO-2004"), ("product_id", .str "P-200"),
   ("email", .str "b@c.com"), ("quantity", .str "1"), ("unit_price", .str "0.0"),
   ("order_date", .str "2024-02-10")]

/-- The cleaned record for rowZeroPrice: the parsed zero price is kept. -/
def rowZeroPriceClean : Row :=
  [("order_id", .str "SO-2004"), ("product_id", .str "P-200"),
   ("email", .str "b@c.com"), ("quantity", .int 1), ("unit_price", .float ⟨0, 10⟩),
   ("order_date", .str "2024-02-10"), ("total", .float ⟨0, 100⟩)]

/-- A raw row whose quantity is a non-numeric string. -/
def rowBadQty : Row :=
  [("order_id", .str "SO-3001"), ("product_id", .str "P-300"),
   ("email", .str "c@d.com"), ("quantity", .str "two"), ("unit_price", .str "5"),
   ("order_date", .str "2024-03-01")]

/-- A raw row whose quantity is negative. -/
def rowNegQty : Row :=
  [("order_id", .str "SO-3002"), ("product_id", .str "P-300"),
   ("email", .str "c@d.com"), ("quantity", .str "-3"), ("unit_price", .str "5.0"),
   ("order_date", .str "2024-03-01")]

/-- The cleaned record for rowNegQty: quantity corrected to 1. -/
def rowNegQtyClean : Row :=
  [("order_id", .str "SO-3002"), ("product_id", .str "P-300"),
   ("email", .str "c@d.com"), ("quantity", .int 1), ("unit_price", .float ⟨50, 10⟩),
   ("order_date", .str "2024-03-01"), ("total", .float ⟨500, 100⟩)]

/-- Rational denotation of a float, used only in proofs. -/
def pfVal (a : PFloat) : ℚ := (a.num : ℚ) / (((a.den : ℕ) : ℚ))

/-- Membership of a value among the keys already seen, using Python equality
(the dict-membership test of check_duplicates). -/
def seenMem (seen : List PyVal) (oid : PyVal) : Bool := seen.any (fun x => pyEq x oid)

/-- Whether a row's order_id field holds a value equal (in Python's sense)
to the given one; false when the field is absent. -/
def rowOidIs (r : Row) (oid : PyVal) : Bool :=
  match rget r "order_id" with
  | some o => pyEq o oid
  | Option.none => false

/-- The loop of transformer.check_duplicates: rows whose order_id was already
seen are dropped and counted, rows with a fresh order_id are appended to the
survivors and their order_id recorded; indexing a row without an order_id key
raises KeyError (none). -/
def dedupGo (seen : List PyVal) (acc : List Row) (dup : ℕ) : List Row → Option (List Row × ℕ)
  | [] => some (acc, dup)
  | r :: rs =>
    match rget r "order_id" with
    | Option.none => Option.none
    | some oid =>
      if seenMem seen oid then dedupGo seen acc (dup + 1) rs
      else dedupGo (seen ++ [oid]) (acc ++ [r]) dup rs

/-- Embedding of transformer.check_duplicates: returns the surviving rows in
first-seen order together with the count of removed duplicates. -/
def check_duplicates (rows : List Row) : Option (List Row × ℕ) := dedupGo [] [] 0 rows

/-- Two rows with Python-unequal order_id values. -/
def oidDistinct (a b : Row) : Prop :=
  ∀ x y, rget a "order_id" = some x → rget b "order_id" = some y → pyEq x y = false

/-- Rows with one duplicated order_id, for exercising deduplication. -/
def dupRows : List Row :=
  [[("order_id", .str "A"), ("v", .int 1)], [("order_id", .str "B")],
   [("order_id", .str "A"), ("v", .int 2)]]

/-- One step of the Python dict comprehension that builds the product lookup:
a repeated product_id overwrites the stored entry in place, a new product_id
is appended. -/
def dictInsert (acc : List (PyVal × Row)) (k : PyVal) (v : Row) : List (PyVal × Row) :=
  if acc.any (fun e => pyEq e.1 k) then
    acc.map (fun e => if pyEq e.1 k then (e.1, v) else e)
  else acc ++ [(k, v)]

/-- Python dict .get on the built lookup, keyed by Python equality. -/
def dictGet (acc : List (PyVal × Row)) (k : PyVal) : Option Row :=
  (acc.find? (fun e => pyEq e.1 k)).map (fun e => e.2)

/-- The dict comprehension of enrich_with_products: a catalog entry without a
product_id key raises KeyError (none). -/
def buildLookupGo (acc : List (PyVal × Row)) : List Row → Option (List (PyVal × Row))
  | [] => some acc
  | p :: ps =>
    match rget p "product_id" with
    | Option.none => Option.none
    | some pid => buildLookupGo (dictInsert acc pid p) ps

/-- The product_lookup dict of enrich_with_products. -/
def product_lookup (catalog : List Row) : Option (List (PyVal × Row)) := buildLookupGo [] catalog

/-- The row loop of enrich_with_products: a found product copies name,
category and stock onto the row (the stock value must be numeric for the
low-stock comparison, else TypeError); a missing product sets the UNKNOWN
sentinels and stock -1 and adds the product_id to the missing set (a set, so
at most once); rows are appended in order. -/
def enrichGo (lk : List (PyVal × Row)) (missing : List PyVal) (acc : List Row) :
    List Row → Option (List Row × List PyVal)
  | [] => some (acc, missing)
  | r :: rs =>
    match rget r "product_id" with
    | Option.none => Option.none
    | some pid =>
      match dictGet lk pid with
      | some p =>
        match rget p "name", rget p "category", rget p "stock" with
        | some nm, some cg, some st =>
          match toNum st with
          | Option.none => Option.none
          | some _ =>
            enrichGo lk missing
              (acc ++ [rset (rset (rset r "product_name" nm) "category" cg) "current_stock" st]) rs
        | _, _, _ => Option.none
      | Option.none =>
        let missing2 := if seenMem missing pid then missing else missing ++ [pid]
        enrichGo lk missing2
          (acc ++ [rset (rset (rset r "product_name" (.str "UNKNOWN")) "category"
            (.str "UNKNOWN")) "current_stock" (.int (-1))]) rs

/-- Embedding of transformer.enrich_with_products: build the lookup once,
then enrich every row, returning the enriched rows and the set of missing
product ids. -/
def enrich_with_products (rows catalog : List Row) : Option (List Row × List PyVal) :=
  match product_lookup catalog with
  | Option.none => Option.none
  | some lk => enrichGo lk [] [] rows

/-- The per-row relation established by enrichment: the output row is the
input row with exactly the three enrichment fields assigned, either copied
from the catalog entry or set to the UNKNOWN sentinels. -/
def enrichRel (lk : List (PyVal × Row)) (r r2 : Row) : Prop :=
  ∃ pid, rget r "product_id" = some pid ∧
    ((dictGet lk pid = Option.none ∧
      r2 = rset (rset (rset r "product_name" (.str "UNKNOWN")) "category" (.str "UNKNOWN"))
        "current_stock" (.int (-1)) ∧
      rget r2 "product_name" = some (.str "UNKNOWN") ∧
      rget r2 "category" = some (.str "UNKNOWN") ∧
      rget r2 "current_stock" = some (.int (-1))) ∨
     (∃ p nm cg st, dictGet lk pid = some p ∧ rget p "name" = some nm ∧
      rget p "category" = some cg ∧ rget p "stock" = some st ∧
      r2 = rset (rset (rset r "product_name" nm) "category" cg) "current_stock" st ∧
      rget r2 "product_name" = some nm ∧ rget r2 "category" = some cg ∧
      rget r2 "current_stock" = some st))

/-- Whether a row references the queried product id and that id is absent
from the lookup (the condition under which enrichment reports it missing). -/
def refsMissing (lk : List (PyVal × Row)) (pid : PyVal) (r : Row) : Bool :=
  match rget r "product_id" with
  | some pid2 => pyEq pid2 pid && (dictGet lk pid2).isNone
  | Option.none => false

/-- Rows referencing one catalogued product and, twice, one missing product. -/
def enrichRows : List Row :=
  [[("order_id", .str "O1"), ("product_id", .str "P1")],
   [("order_id", .str "O2"), ("product_id", .str "PX")],
   [("order_id", .str "O3"), ("product_id", .str "PX")]]

/-- A catalog containing only product P1. -/
def enrichCatalog : List Row :=
  [[("product_id", .str "P1"), ("name", .str "Widget"), ("category", .str "Tools"),
    ("stock", .int 25)]]

/-- The lookup dict built from enrichCatalog. -/
def enrichLk : List (PyVal × Row) :=
  [(.str "P1", [("product_id", .str "P1"), ("name", .str "Widget"),
    ("category", .str "Tools"), ("stock", .int 25)])]

/-- State of the JSON catalog file as seen by extract_json: absent on disk,
unparseable, or a parsed top-level object mapping keys to record lists. -/
inductive JsonFile where
  | missing
  | malformed
  | obj (entries : List (String × List Row))
  deriving DecidableEq

/-- Embedding of extractor.extract_csv over the parsed file content: a
missing file yields an empty list, otherwise the parsed rows. -/
def extract_csv (csvFile : Option (List Row)) : List Row := csvFile.getD []

/-- Embedding of extractor.extract_json: a missing file, a JSON parse error,
or an object without the requested key all yield an empty record list. -/
def extract_json (jf : JsonFile) (key : String) : List Row :=
  match jf with
  | .missing => []
  | .malformed => []
  | .obj entries => ((entries.find? (fun e => e.1 == key)).map (fun e => e.2)).getD []

/-- The fixed records the simulated API returns on a 200 response. -/
def apiRecords : List Row :=
  [[("source", .str "api"), ("order_id", .str "API-001"), ("amount", .float ⟨15000, 100⟩)],
   [("source", .str "api"), ("order_id", .str "API-002"), ("amount", .float ⟨7550, 100⟩)]]

/-- The retry loop of extract_from_api: the statuses stream gives the
simulated HTTP status of each attempt; the first 200 returns the records,
and exhausting all attempts returns an empty list. -/
def apiLoop (statuses : ℕ → ℕ) (attempt : ℕ) : ℕ → List Row
  | 0 => []
  | fuel + 1 => if statuses attempt == 200 then apiRecords else apiLoop statuses (attempt + 1) fuel

/-- Embedding of extractor.extract_from_api with max_retries attempts. -/
def extract_from_api (statuses : ℕ → ℕ) (max_retries : ℕ) : List Row :=
  apiLoop statuses 1 max_retries

/-- The per-source-name mapping run_extraction aggregates into. -/
structure ExtractedData where
  sales_data : List Row
  product_catalog : List Row
  api_data : List Row
  deriving DecidableEq

/-- Embedding of extractor.run_extraction: extract all three sources, then
raise RuntimeError (error) exactly when the primary CSV source yielded zero
records. -/
def run_extraction (csvFile : Option (List Row)) (jf : JsonFile) (statuses : ℕ → ℕ) :
    Except String ExtractedData :=
  let sales := extract_csv csvFile
  let catalog := extract_json jf "products"
  let api := extract_from_api statuses 3
  if sales.isEmpty then Except.error "Extraction failed: no sales data"
  else Except.ok ⟨sales, catalog, api⟩

/-- The 500.00 high-value order threshold. -/
def HIGH_VALUE_ORDER_THRESHOLD : PFloat := ⟨50000, 100⟩

/-- The high-quantity threshold. -/
def HIGH_QUANTITY_THRESHOLD : ℤ := 20

/-- The quantity check of detect_anomalies; a non-numeric quantity raises
TypeError on the comparison, and the alert's log line indexes order_id. -/
def quantityAlert (row : Row) (alerts : List String) : Option (List String) :=
  match toNum (pyGetD row "quantity" (.int 0)) with
  | Option.none => Option.none
  | some q =>
    if pfLt (pfOfInt HIGH_QUANTITY_THRESHOLD) q then
      match rget row "order_id" with
      | Option.none => Option.none
      | some _ => some (alerts ++ ["high_quantity"])
    else some alerts

/-- Embedding of transformer.detect_anomalies: totals above 500.00 flag
high_value, quantities above 20 flag high_quantity; both defaults are 0 via
row.get, and a non-numeric value raises TypeError on the comparison. -/
def detect_anomalies (row : Row) : Option (List String) :=
  match toNum (pyGetD row "total" (.int 0)) with
  | Option.none => Option.none
  | some t =>
    if pfLt HIGH_VALUE_ORDER_THRESHOLD t then
      match rget row "order_id" with
      | Option.none => Option.none
      | some _ => quantityAlert row ["high_value"]
    else quantityAlert row []

/-- The validation loop of run_transformation: valid rows are collected in
order, invalid rows are counted as skipped, and an exception from
validate_row propagates. -/
def validateAll : List Row → Option (List Row × ℕ)
  | [] => some ([], 0)
  | r :: rs =>
    match validate_row r with
    | .raised => Option.none
    | .rejected _ => (validateAll rs).map (fun vs => (vs.1, vs.2 + 1))
    | .accepted c _ => (validateAll rs).map (fun vs => (c :: vs.1, vs.2))

/-- The anomaly loop of run_transformation: every row receives an explicit
anomaly_flags field holding its (possibly empty) alert list. -/
def anomalyAll : List Row → Option (List Row)
  | [] => some []
  | r :: rs =>
    match detect_anomalies r with
    | Option.none => Option.none
    | some alerts => (anomalyAll rs).map (fun l => rset r "anomaly_flags" (.list alerts) :: l)

/-- Embedding of transformer.run_transformation: validate all rows, remove
duplicates, flag anomalies, then enrich with the product catalog; any
uncaught exception in a step propagates (none). -/
def run_transformation (ed : ExtractedData) : Option (List Row) :=
  match validateAll ed.sales_data with
  | Option.none => Option.none
  | some vs =>
    match check_duplicates vs.1 with
    | Option.none => Option.none
    | some us =>
      match anomalyAll us.1 with
      | Option.none => Option.none
      | some fs =>
        match enrich_with_products fs ed.product_catalog with
        | Option.none => Option.none
        | some es => some es.1

/-- The loader batch size. -/
def BATCH_SIZE : ℕ := 10

/-- The batch split of run_loading, mirroring the Python slice comprehension
over range(0, len(rows), BATCH_SIZE). -/
def toBatches (l : List Row) : List (List Row) :=
  (List.range ((l.length + BATCH_SIZE - 1) / BATCH_SIZE)).map
    (fun j => (l.drop (BATCH_SIZE * j)).take BATCH_SIZE)

/-- The clean_sales table: committed rows as pairs of primary key (the
order_id column) and the full inserted tuple. -/
abbrev Table := List (PyVal × List PyVal)

/-- Whether a primary key is present in the visible table state (the
INSERT OR IGNORE duplicate test). -/
def keyMem (t : Table) (oid : PyVal) : Bool := seenMem (t.map Prod.fst) oid

/-- An apostrophe as a string, for Python repr output. -/
def quoteChar : String := (Char.ofNat 39).toString

/-- Simplified Python repr of a value, used only to serialise the
anomaly_flags list into its TEXT column. -/
def pyReprOf (v : PyVal) : String :=
  match v with
  | .none => "None"
  | .str s => quoteChar ++ s ++ quoteChar
  | .int n => toString n
  | .float f => toString f.num ++ "/" ++ toString (f.den : ℕ)
  | .list l => "[" ++ String.intercalate ", " (l.map (fun s => quoteChar ++ s ++ quoteChar)) ++ "]"

/-- Python str() of a value. -/
def pyStrOf (v : PyVal) : String :=
  match v with
  | .str s => s
  | v => pyReprOf v

/-- The 13-column tuple load_batch binds for one row, keyed by order_id;
indexing any of the nine required fields on a row lacking it raises KeyError
(none), while product_name, category, current_stock and anomaly_flags use
.get defaults. -/
def rowRest (row : Row) : Option (List PyVal) :=
  match rget row "customer_name", rget row "email", rget row "product_id",
    rget row "quantity", rget row "unit_price", rget row "total", rget row "order_date",
    rget row "payment_method" with
  | some cn, some em, some pid, some q, some up, some tot, some od, some pm =>
    some [cn, em, pid, pyGetD row "product_name" (.str "UNKNOWN"),
      pyGetD row "category" (.str "UNKNOWN"), q, up, tot, od, pm,
      pyGetD row "current_stock" (.int (-1)),
      .str (pyStrOf (pyGetD row "anomaly_flags" (.list [])))]
  | _, _, _, _, _, _, _, _ => Option.none

/-- The full tuple keyed by the order_id primary-key column. -/
def rowTuple (row : Row) : Option (PyVal × List PyVal) :=
  match rget row "order_id", rowRest row with
  | some oid, some rest => some (oid, oid :: rest)
  | _, _ => Option.none

/-- The row loop of loader.load_batch: each row is inserted-or-ignored
against the visible state (committed rows plus this transaction's pending
inserts); a duplicate primary key counts as skipped, a fresh key as
inserted. -/
def load_batch_go (committed pending : Table) (ins skp : ℕ) :
    List Row → Option (Table × ℕ × ℕ)
  | [] => some (pending, ins, skp)
  | r :: rs =>
    match rowTuple r with
    | Option.none => Option.none
    | some kt =>
      if keyMem (committed ++ pending) kt.1 then load_batch_go committed pending ins (skp + 1) rs
      else load_batch_go committed (pending ++ [kt]) (ins + 1) skp rs

/-- Embedding of loader.load_batch: returns the batch's pending inserts and
the inserted and skipped counts. -/
def load_batch (committed : Table) (batch : List Row) : Option (Table × ℕ × ℕ) :=
  load_batch_go committed [] 0 0 batch

/-- Embedding of loader.simulate_connection_issue: the failure can only
trigger on the last batch, and only when the 30 percent random draw (the
coin) comes up true. -/
def simulate_connection_issue (coin : Bool) (batch_num total_batches : ℕ) : Bool :=
  batch_num == total_batches && coin

/-- The batch loop of run_loading: a simulated connection failure rolls back
the in-flight batch (whose pending inserts are discarded) and breaks out,
returning the counts accumulated so far; otherwise the batch is loaded and
committed and the loop continues. -/
def loadLoop (coin : Bool) (total : ℕ) :
    ℕ → Table → ℕ → ℕ → List (List Row) → Option (Table × ℕ × ℕ)
  | _, committed, ins, skp, [] => some (committed, ins, skp)
  | batch_num, committed, ins, skp, b :: bs =>
    if simulate_connection_issue coin batch_num total then some (committed, ins, skp)
    else
      match load_batch committed b with
      | Option.none => Option.none
      | some (pending, bin, bsk) =>
        loadLoop coin total (batch_num + 1) (committed ++ pending) (ins + bin) (skp + bsk) bs

/-- Embedding of loader.run_loading: open the database (db0 holds any rows
already committed in an existing database file; openFail models an sqlite
error on creation, which is re-raised), split into batches and run the batch
loop, returning the final committed table and the total inserted and skipped
counts. -/
def run_loading (cleaned_rows : List Row) (db0 : Table) (openFail coin : Bool) :
    Option (Table × ℕ × ℕ) :=
  if openFail then Option.none
  else loadLoop coin (toBatches cleaned_rows).length 1 db0 0 0 (toBatches cleaned_rows)

/-- The pipeline stats dict of main.run_pipeline. -/
structure RunStats where
  extracted : ℕ
  transformed : ℕ
  loaded : ℕ
  skipped : ℕ
  errors : ℕ
  phase_failed : Option String
  deriving DecidableEq

/-- The environment a pipeline run observes: the parsed CSV file (none when
absent), the JSON catalog state, the simulated API status per attempt, and
the loader's database state and failure draws. -/
structure PipelineEnv where
  csvFile : Option (List Row)
  jsonFile : JsonFile
  apiStatuses : ℕ → ℕ
  dbOpenFail : Bool
  db0 : Table
  coin : Bool

/-- Embedding of main.run_pipeline: Extract, Transform, Load run strictly in
that order; the first stage that raises records its name in phase_failed,
increments errors and returns the stats immediately, so later stages are
never attempted; a fully successful run leaves phase_failed as None. -/
def run_pipeline (env : PipelineEnv) : RunStats :=
  match run_extraction env.csvFile env.jsonFile env.apiStatuses with
  | Except.error _ => ⟨0, 0, 0, 0, 1, some "extraction"⟩
  | Except.ok ed =>
    match run_transformation ed with
    | Option.none => ⟨ed.sales_data.length, 0, 0, 0, 1, some "transformation"⟩
    | some cleaned =>
      match run_loading cleaned env.db0 env.dbOpenFail env.coin with
      | Option.none => ⟨ed.sales_data.length, cleaned.length, 0, 0, 1, some "loading"⟩
      | some res => ⟨ed.sales_data.length, cleaned.length, res.2.1, res.2.2, 0, Option.none⟩

/-- A raw row whose field map lacks the quantity key entirely, as when the
CSV header row itself has no quantity column. -/
def rowNoQuantity : Row :=
  [("order_id", .str "SO-4001"), ("customer_name", .str "Dan"), ("email", .str "d@e.com"),
   ("product_id", .str "P-400"), ("payment_method", .str "card"),
   ("order_date", .str "2024-04-01")]

/-- A raw row whose quantity key is present with value None, as csv.DictReader
produces for a data row shorter than the header. -/
def rowQuantityNone : Row :=
  [("order_id", .str "SO-4002"), ("customer_name", .str "Eve"), ("email", .str "e@f.com"),
   ("product_id", .str "P-400"), ("quantity", PyVal.none), ("payment_method", .str "card"),
   ("order_date", .str "2024-04-01")]

/-- An environment whose CSV parses to zero rows. -/
def envExtFail : PipelineEnv := ⟨some [], .missing, fun _ => 200, false, [], false⟩

/-- An environment whose CSV holds a row without a quantity key. -/
def envTransFail : PipelineEnv :=
  ⟨some [rowNoQuantity], .missing, fun _ => 200, false, [], false⟩

/-- An environment where opening the database raises. -/
def envLoadFail : PipelineEnv := ⟨some [sampleRow], .missing, fun _ => 200, true, [], false⟩

/-- An environment for one fully successful run. -/
def envOk : PipelineEnv := ⟨some [sampleRow], .missing, fun _ => 200, false, [], false⟩

/-- The transformed record for sampleRow under the empty catalog. -/
def sampleEnriched : Row :=
  [("order_id", .str "SO-1001"), ("customer_name", .str "Ann Lee"),
   ("email", .str "ann@example.com"), ("product_id", .str "P-100"),
   ("quantity", .int 2), ("unit_price", .float ⟨1999, 100⟩),
   ("order_date", .str "2024-01-05"), ("payment_method", .str "card"),
   ("total", .float ⟨3998, 100⟩), ("anomaly_flags", .list []),
   ("product_name", .str "UNKNOWN"), ("category", .str "UNKNOWN"),
   ("current_stock", .int (-1))]

/-- The database tuple loaded for sampleEnriched. -/
def sampleTuple : List PyVal :=
  [.str "SO-1001", .str "Ann Lee", .str "ann@example.com", .str "P-100", .str "UNKNOWN",
   .str "UNKNOWN", .int 2, .float ⟨1999, 100⟩, .float ⟨3998, 100⟩, .str "2024-01-05",
   .str "card", .int (-1), .str "[]"]

/-- An environment whose CSV holds a clean row and a row with no quantity
key at all. -/
def envC2bad : PipelineEnv :=
  ⟨some [sampleRow, rowNoQuantity], .missing, fun _ => 200, false, [], false⟩

/-- An environment whose CSV holds a clean row and a row whose quantity
value is None. -/
def envC2good : PipelineEnv :=
  ⟨some [sampleRow, rowQuantityNone], .missing, fun _ => 200, false, [], false⟩

/-- A minimal well-formed clean record with the given order id. -/
def loadRow (oid : String) : Row :=
  [("order_id", .str oid), ("customer_name", .str "Cust"), ("email", .str "c@x.com"),
   ("product_id", .str "P-1"), ("quantity", .int 1), ("unit_price", .float pfZero),
   ("total", .float pfZero), ("order_date", .str "2024-01-01"),
   ("payment_method", .str "card")]

/-- Eleven clean records: one full batch of ten plus a final batch of one. -/
def loadRows : List Row :=
  [loadRow "L01", loadRow "L02", loadRow "L03", loadRow "L04", loadRow "L05",
   loadRow "L06", loadRow "L07", loadRow "L08", loadRow "L09", loadRow "L10",
   loadRow "L11"]

theorem rget_rset_self (r : Row) (k : String) (v : PyVal) : rget (rset r k v) k = some v := by
  induction r with
  | nil => simp [rset, rget]
  | cons hd t ih =>
    obtain ⟨k', w⟩ := hd
    by_cases hk : k' = k
    · simp [rset, hk, rget]
    · simp [rset, hk, rget, ih]

theorem rget_rset_ne (r : Row) {k k' : String} (v : PyVal) (h : k' ≠ k) :
    rget (rset r k v) k' = rget r k' := by
  induction r with
  | nil => simp [rset, rget, Ne.symm h]
  | cons hd t ih =>
    obtain ⟨k'', w⟩ := hd
    by_cases hk : k'' = k
    · subst hk
      simp [rset, rget, Ne.symm h]
    · by_cases hk2 : k'' = k'
      · simp [rset, if_neg hk, rget, hk2, h]
      · simp [rset, if_neg hk, rget, hk2, ih]

theorem hasKey_rset (r : Row) (k k' : String) (v : PyVal) :
    hasKey (rset r k v) k' = (hasKey r k' || k' == k) := by
  by_cases h : k' = k
  · subst h
    simp [hasKey, rget_rset_self]
  · simp [hasKey, rget_rset_ne r v h, h]

theorem emailStep_fst (row : Row) :
    (emailStep row).1 = row ∨ (emailStep row).1 = rset row "email" (.str "unknown@placeholder.com") := by
  unfold emailStep
  split
  · exact Or.inr rfl
  · exact Or.inl rfl

/-- Every accepted row is the input row (with the email sentinel possibly
filled in) with exactly the quantity, unit_price, order_date and total fields
assigned, total being derived from the cleaned quantity and price. -/
theorem validate_row_accepted_shape (row c : Row) (iss : List String)
    (h : validate_row row = .accepted c iss) :
    ∃ base q p ds,
      (base = row ∨ base = rset row "email" (.str "unknown@placeholder.com")) ∧
      c = rset (rset (rset (rset base "quantity" (.int q)) "unit_price" (.float p))
        "order_date" (.str ds)) "total" (.float (round2 (pfMul (pfOfInt q) p))) := by
  by_cases ho : truthy (pyGet row "order_id")
  · by_cases hp : truthy (pyGet row "product_id")
    · rcases hq : rget row "quantity" with _ | qv
      · simp [validate_row, ho, hp, hq] at h
      · rcases hqi : pyInt qv with _ | q0
        · simp [validate_row, ho, hp, hq, hqi] at h
        · rcases hpr : priceStep row (quantityAdjust q0 (emailStep row).2).2 with _ | pi2
          · simp [validate_row, ho, hp, hq, hqi, hpr] at h
          · rcases hd : rget row "order_date" with _ | dv
            · simp [validate_row, ho, hp, hq, hqi, hpr, hd] at h
            · rcases hdp : tryParseDate dv with _ | ymd
              · simp [validate_row, ho, hp, hq, hqi, hpr, hd, hdp] at h
              · simp only [validate_row, ho, hp, hq, hqi, hpr, hd, hdp, Bool.not_true,
                  Bool.false_eq_true, if_false, ValidateResult.accepted.injEq] at h
                exact ⟨(emailStep row).1, (quantityAdjust q0 (emailStep row).2).1, pi2.1,
                  fmtISO ymd, emailStep_fst row, h.1.symm⟩
    · simp [validate_row, ho, hp] at h
  · simp [validate_row, ho] at h

theorem priceStep_issues_suffix (row : Row) (is1 : List String) (pi2 : PFloat × List String)
    (h : priceStep row is1 = some pi2) : ∃ suf, pi2.2 = is1 ++ suf := by
  by_cases ht : truthy (pyGet row "unit_price")
  · rcases hf : pyFloat (pyGet row "unit_price") with _ | p0
    · simp [priceStep, ht, hf] at h
    · by_cases hn : pfIsNeg p0
      · simp [priceStep, ht, hf, hn] at h
        exact ⟨["negative_price"], by rw [← h]⟩
      · by_cases hz : pfIsZero p0
        · simp [priceStep, ht, hf, hn, hz] at h
          exact ⟨["zero_price"], by rw [← h]⟩
        · simp [priceStep, ht, hf, hn, hz] at h
          exact ⟨[], by rw [← h]; simp⟩
  · simp [priceStep, ht] at h
    exact ⟨["zero_price"], by rw [← h]⟩

theorem priceStep_none_means (row : Row) (is1 : List String)
    (h : priceStep row is1 = Option.none) :
    truthy (pyGet row "unit_price") = true ∧ pyFloat (pyGet row "unit_price") = Option.none := by
  by_cases ht : truthy (pyGet row "unit_price")
  · rcases hf : pyFloat (pyGet row "unit_price") with _ | p0
    · exact ⟨ht, rfl⟩
    · by_cases hn : pfIsNeg p0
      · simp [priceStep, ht, hf, hn] at h
      · by_cases hz : pfIsZero p0
        · simp [priceStep, ht, hf, hn, hz] at h
        · simp [priceStep, ht, hf, hn, hz] at h
  · simp [priceStep, ht] at h

/-- Structural characterisation of an accepted validate_row run: the quantity
value parsed, the price step succeeded, the issue list is the price step's
issue list, and the cleaned row is built by the four field assignments. -/
theorem validate_row_accepted_struct (row c : Row) (iss : List String)
    (h : validate_row row = .accepted c iss) :
    ∃ qv q0 pi2 ymd,
      rget row "quantity" = some qv ∧ pyInt qv = some q0 ∧
      priceStep row (quantityAdjust q0 (emailStep row).2).2 = some pi2 ∧
      iss = pi2.2 ∧
      c = rset (rset (rset (rset (emailStep row).1 "quantity"
            (.int (quantityAdjust q0 (emailStep row).2).1))
          "unit_price" (.float pi2.1)) "order_date" (.str (fmtISO ymd))) "total"
          (.float (round2 (pfMul (pfOfInt (quantityAdjust q0 (emailStep row).2).1) pi2.1))) := by
  by_cases ho : truthy (pyGet row "order_id")
  · by_cases hp : truthy (pyGet row "product_id")
    · rcases hq : rget row "quantity" with _ | qv
      · simp [validate_row, ho, hp, hq] at h
      · rcases hqi : pyInt qv with _ | q0
        · simp [validate_row, ho, hp, hq, hqi] at h
        · rcases hpr : priceStep row (quantityAdjust q0 (emailStep row).2).2 with _ | pi2
          · simp [validate_row, ho, hp, hq, hqi, hpr] at h
          · rcases hd : rget row "order_date" with _ | dv
            · simp [validate_row, ho, hp, hq, hqi, hpr, hd] at h
            · rcases hdp : tryParseDate dv with _ | ymd
              · simp [validate_row, ho, hp, hq, hqi, hpr, hd, hdp] at h
              · simp only [validate_row, ho, hp, hq, hqi, hpr, hd, hdp, Bool.not_true,
                  Bool.false_eq_true, if_false, ValidateResult.accepted.injEq] at h
                exact ⟨qv, q0, pi2, ymd, rfl, hqi, hpr, h.2.symm, h.1.symm⟩
    · simp [validate_row, ho, hp] at h
  · simp [validate_row, ho] at h

/-- C5: for every record accepted by validation, the stored total field equals
round(quantity * unit_price, 2) computed from the cleaned quantity and
unit_price fields of the output record; since this holds for every accepted
row whatever total value the input row carried, any input total is always
overwritten with the derived value, never trusted. -/
theorem total_is_derived (row c : Row) (iss : List String)
    (h : validate_row row = .accepted c iss) :
    ∃ q p, rget c "quantity" = some (.int q) ∧ rget c "unit_price" = some (.float p) ∧
      rget c "total" = some (.float (round2 (pfMul (pfOfInt q) p))) := by
  obtain ⟨base, q, p, ds, hbase, hc⟩ := validate_row_accepted_shape row c iss h
  subst hc
  refine ⟨q, p, ?_, ?_, rget_rset_self _ _ _⟩
  · rw [rget_rset_ne _ _ (by decide), rget_rset_ne _ _ (by decide),
      rget_rset_ne _ _ (by decide), rget_rset_self]
  · rw [rget_rset_ne _ _ (by decide), rget_rset_ne _ _ (by decide), rget_rset_self]

theorem total_is_derived_witness :
    ∃ q p, rget sampleClean "quantity" = some (.int q) ∧
      rget sampleClean "unit_price" = some (.float p) ∧
      rget sampleClean "total" = some (.float (round2 (pfMul (pfOfInt q) p))) :=
  total_is_derived sampleRow sampleClean [] (by decide)

theorem rget_clean_unit_price (base : Row) (q : ℤ) (p : PFloat) (ds : String) (tv : PyVal) :
    rget (rset (rset (rset (rset base "quantity" (.int q)) "unit_price" (.float p))
      "order_date" (.str ds)) "total" tv) "unit_price" = some (.float p) := by
  rw [rget_rset_ne _ _ (by decide), rget_rset_ne _ _ (by decide), rget_rset_self]

theorem rget_clean_quantity (base : Row) (q : ℤ) (pv dv tv : PyVal) :
    rget (rset (rset (rset (rset base "quantity" (.int q)) "unit_price" pv)
      "order_date" dv) "total" tv) "quantity" = some (.int q) := by
  rw [rget_rset_ne _ _ (by decide), rget_rset_ne _ _ (by decide),
    rget_rset_ne _ _ (by decide), rget_rset_self]

/-- C7: unit_price handling of validate_row. An absent or empty (falsy)
unit_price parses to 0.0 and is never the invalid_price_type fatal rejection,
and an accepted such row carries unit_price 0.0 with issue zero_price; a
non-numeric unit_price string is fatal with issue invalid_price_type and the
row is dropped; a negative price is auto-corrected to 0.0 with issue
negative_price; an exactly-zero price is non-fatal but zero_price is
recorded. -/
theorem unit_price_validation_spec :
    (∀ row : Row, truthy (pyGet row "unit_price") = false →
      validate_row row ≠ .rejected ["invalid_price_type"]) ∧
    (∀ (row c : Row) (iss : List String), truthy (pyGet row "unit_price") = false →
      validate_row row = .accepted c iss →
      rget c "unit_price" = some (.float pfZero) ∧ "zero_price" ∈ iss) ∧
    (∀ (row : Row) (qv : PyVal) (q0 : ℤ),
      truthy (pyGet row "order_id") = true → truthy (pyGet row "product_id") = true →
      rget row "quantity" = some qv → pyInt qv = some q0 →
      truthy (pyGet row "unit_price") = true →
      pyFloat (pyGet row "unit_price") = Option.none →
      validate_row row = .rejected ["invalid_price_type"]) ∧
    (∀ (row c : Row) (iss : List String) (p0 : PFloat),
      truthy (pyGet row "unit_price") = true →
      pyFloat (pyGet row "unit_price") = some p0 → pfIsNeg p0 = true →
      validate_row row = .accepted c iss →
      rget c "unit_price" = some (.float pfZero) ∧ "negative_price" ∈ iss) ∧
    (∀ (row c : Row) (iss : List String) (p0 : PFloat),
      truthy (pyGet row "unit_price") = true →
      pyFloat (pyGet row "unit_price") = some p0 → pfIsNeg p0 = false →
      pfIsZero p0 = true →
      validate_row row = .accepted c iss →
      rget c "unit_price" = some (.float p0) ∧ "zero_price" ∈ iss) := by
  refine ⟨?_, ?_, ?_, ?_, ?_⟩
  · intro row hfal hcon
    by_cases ho : truthy (pyGet row "order_id")
    · by_cases hp : truthy (pyGet row "product_id")
      · rcases hq : rget row "quantity" with _ | qv
        · simp [validate_row, ho, hp, hq] at hcon
        · rcases hqi : pyInt qv with _ | q0
          · simp [validate_row, ho, hp, hq, hqi] at hcon
          · rcases hd : rget row "order_date" with _ | dv
            · simp [validate_row, ho, hp, hq, hqi, priceStep, hfal, hd] at hcon
            · rcases hdp : tryParseDate dv with _ | ymd
              · simp [validate_row, ho, hp, hq, hqi, priceStep, hfal, hd, hdp] at hcon
              · simp [validate_row, ho, hp, hq, hqi, priceStep, hfal, hd, hdp] at hcon
      · simp [validate_row, ho, hp] at hcon
    · simp [validate_row, ho] at hcon
  · intro row c iss hfal hacc
    obtain ⟨qv, q0, pi2, ymd, hq, hqi, hpr, hiss, hc⟩ := validate_row_accepted_struct row c iss hacc
    simp only [priceStep, hfal, Bool.false_eq_true, if_false, Option.some.injEq] at hpr
    subst hc
    rw [← hpr]
    exact ⟨rget_clean_unit_price _ _ _ _ _, by simp [hiss, ← hpr]⟩
  · intro row qv q0 ho hp hq hqi ht hf
    simp [validate_row, ho, hp, hq, hqi, priceStep, ht, hf]
  · intro row c iss p0 ht hf hn hacc
    obtain ⟨qv, q0, pi2, ymd, hq, hqi, hpr, hiss, hc⟩ := validate_row_accepted_struct row c iss hacc
    simp only [priceStep, ht, if_true, hf, hn, Option.some.injEq] at hpr
    subst hc
    rw [← hpr]
    exact ⟨rget_clean_unit_price _ _ _ _ _, by simp [hiss, ← hpr]⟩
  · intro row c iss p0 ht hf hn hz hacc
    obtain ⟨qv, q0, pi2, ymd, hq, hqi, hpr, hiss, hc⟩ := validate_row_accepted_struct row c iss hacc
    simp only [priceStep, ht, if_true, hf, hn, hz, Bool.false_eq_true, if_false,
      Option.some.injEq] at hpr
    subst hc
    rw [← hpr]
    exact ⟨rget_clean_unit_price _ _ _ _ _, by simp [hiss, ← hpr]⟩

theorem unit_price_validation_spec_witness :
    (validate_row rowNoPrice ≠ .rejected ["invalid_price_type"]) ∧
    (rget rowNoPriceClean "unit_price" = some (.float pfZero) ∧ "zero_price" ∈ ["zero_price"]) ∧
    (validate_row rowBadPrice = .rejected ["invalid_price_type"]) ∧
    (rget rowNegPriceClean "unit_price" = some (.float pfZero) ∧
      "negative_price" ∈ ["negative_price"]) ∧
    (rget rowZeroPriceClean "unit_price" = some (.float ⟨0, 10⟩) ∧ "zero_price" ∈ ["zero_price"]) :=
  ⟨unit_price_validation_spec.1 rowNoPrice (by decide),
   unit_price_validation_spec.2.1 rowNoPrice rowNoPriceClean ["zero_price"] (by decide) (by decide),
   unit_price_validation_spec.2.2.1 rowBadPrice (.str "1") 1 (by decide) (by decide) (by decide)
     (by decide) (by decide) (by decide),
   unit_price_validation_spec.2.2.2.1 rowNegPrice rowNegPriceClean ["negative_price"] ⟨-25, 10⟩
     (by decide) (by decide) (by decide) (by decide),
   unit_price_validation_spec.2.2.2.2 rowZeroPrice rowZeroPriceClean ["zero_price"] ⟨0, 10⟩
     (by decide) (by decide) (by decide) (by decide) (by decide)⟩

/-- C8: quantity handling of validate_row. The quantity value is parsed as an
integer; a non-numeric quantity is fatal with issue invalid_quantity_type and
the row is dropped; for every row with numeric quantity at most 0 that is
otherwise accepted, the output quantity is 1 and the issue list contains
invalid_quantity. -/
theorem quantity_validation_spec :
    (∀ (row : Row) (qv : PyVal),
      truthy (pyGet row "order_id") = true → truthy (pyGet row "product_id") = true →
      rget row "quantity" = some qv → pyInt qv = Option.none →
      validate_row row = .rejected ["invalid_quantity_type"]) ∧
    (∀ (row c : Row) (iss : List String) (qv : PyVal) (q0 : ℤ),
      rget row "quantity" = some qv → pyInt qv = some q0 → q0 ≤ 0 →
      validate_row row = .accepted c iss →
      rget c "quantity" = some (.int 1) ∧ "invalid_quantity" ∈ iss) := by
  constructor
  · intro row qv ho hp hq hqi
    simp [validate_row, ho, hp, hq, hqi]
  · intro row c iss qv q0 hq hqi hle hacc
    obtain ⟨qv2, q02, pi2, ymd, hq2, hqi2, hpr, hiss, hc⟩ :=
      validate_row_accepted_struct row c iss hacc
    rw [hq] at hq2
    have hv : qv = qv2 := Option.some.inj hq2
    subst hv
    rw [hqi] at hqi2
    have hq0 : q0 = q02 := Option.some.inj hqi2
    subst hq0
    obtain ⟨suf, hsuf⟩ := priceStep_issues_suffix _ _ _ hpr
    subst hc
    constructor
    · rw [rget_clean_quantity]
      simp [quantityAdjust, hle]
    · rw [hiss, hsuf]
      simp [quantityAdjust, hle]

theorem quantity_validation_spec_witness :
    (validate_row rowBadQty = .rejected ["invalid_quantity_type"]) ∧
    (rget rowNegQtyClean "quantity" = some (.int 1) ∧
      "invalid_quantity" ∈ ["invalid_quantity"]) :=
  ⟨quantity_validation_spec.1 rowBadQty (.str "two") (by decide) (by decide) (by decide)
     (by decide),
   quantity_validation_spec.2 rowNegQty rowNegQtyClean ["invalid_quantity"] (.str "-3") (-3)
     (by decide) (by decide) (by decide) (by decide)⟩

/-- C10: for every row accepted by validate_row, the cleaned row contains
every key of the input row, and every key other than email, quantity,
unit_price, order_date and total keeps its original input value; in
particular customer_name and payment_method pass through unchanged, which
load_batch's unconditional indexing of those fields relies on. -/
theorem validate_row_frame (row c : Row) (iss : List String)
    (h : validate_row row = .accepted c iss) :
    (∀ k, hasKey row k = true → hasKey c k = true) ∧
    (∀ k, k ≠ "email" → k ≠ "quantity" → k ≠ "unit_price" → k ≠ "order_date" → k ≠ "total" →
      rget c k = rget row k) := by
  obtain ⟨base, q, p, ds, hbase, hc⟩ := validate_row_accepted_shape row c iss h
  subst hc
  constructor
  · intro k hk
    have hb : hasKey base k = true := by
      rcases hbase with rfl | rfl
      · exact hk
      · rw [hasKey_rset]
        simp [hk]
    simp [hasKey_rset, hb]
  · intro k h1 h2 h3 h4 h5
    rw [rget_rset_ne _ _ h5, rget_rset_ne _ _ h4, rget_rset_ne _ _ h3, rget_rset_ne _ _ h2]
    rcases hbase with rfl | rfl
    · rfl
    · exact rget_rset_ne _ _ h1

theorem validate_row_frame_witness :
    rget sampleClean "customer_name" = rget sampleRow "customer_name" ∧
    rget sampleClean "payment_method" = rget sampleRow "payment_method" ∧
    hasKey sampleClean "customer_name" = true :=
  ⟨(validate_row_frame sampleRow sampleClean [] (by decide)).2 "customer_name" (by decide)
     (by decide) (by decide) (by decide) (by decide),
   (validate_row_frame sampleRow sampleClean [] (by decide)).2 "payment_method" (by decide)
     (by decide) (by decide) (by decide) (by decide),
   (validate_row_frame sampleRow sampleClean [] (by decide)).1 "customer_name" (by decide)⟩

theorem pfDen_q_ne (a : PFloat) : (((a.den : ℕ) : ℚ)) ≠ 0 :=
  Nat.cast_ne_zero.mpr a.den.pos.ne'

theorem pfEq_true_iff (a b : PFloat) : pfEq a b = true ↔ pfVal a = pfVal b := by
  unfold pfEq pfVal
  rw [decide_eq_true_eq, div_eq_div_iff (pfDen_q_ne a) (pfDen_q_ne b)]
  constructor <;> intro h <;> exact_mod_cast h

theorem intFloat_true_iff (a : ℤ) (b : PFloat) :
    decide (a * ((b.den : ℕ) : ℤ) = b.num) = true ↔ (a : ℚ) = pfVal b := by
  unfold pfVal
  rw [decide_eq_true_eq, eq_div_iff (pfDen_q_ne b)]
  constructor <;> intro h <;> exact_mod_cast h

theorem floatInt_true_iff (a : PFloat) (b : ℤ) :
    decide (a.num = b * ((a.den : ℕ) : ℤ)) = true ↔ pfVal a = (b : ℚ) := by
  unfold pfVal
  rw [decide_eq_true_eq, div_eq_iff (pfDen_q_ne a)]
  constructor <;> intro h <;> exact_mod_cast h

theorem pyEq_symm {a b : PyVal} (h : pyEq a b = true) : pyEq b a = true := by
  cases a <;> cases b <;> simp_all [pyEq, pfEq_true_iff, intFloat_true_iff, floatInt_true_iff]

theorem pfVal_int {a : PFloat} {n : ℤ} (h : a.num = n * ((a.den : ℕ) : ℤ)) :
    pfVal a = (n : ℚ) := by
  unfold pfVal
  rw [h]
  push_cast
  exact mul_div_cancel_right₀ _ (pfDen_q_ne a)

theorem int_pfVal {a : PFloat} {n : ℤ} (h : pfVal a = (n : ℚ)) :
    a.num = n * ((a.den : ℕ) : ℤ) := by
  unfold pfVal at h
  rw [div_eq_iff (pfDen_q_ne a)] at h
  exact_mod_cast h

theorem pyEq_trans {a b c : PyVal} (h1 : pyEq a b = true) (h2 : pyEq b c = true) :
    pyEq a c = true := by
  cases a <;> cases b <;> cases c <;>
    simp_all [pyEq, pfEq_true_iff, intFloat_true_iff, floatInt_true_iff]
  · rename_i n fb fc
    exact (int_pfVal (h2.symm.trans (pfVal_int h1.symm))).symm
  · rename_i fa n fc
    exact (pfVal_int h1).trans (pfVal_int h2.symm).symm
  · rename_i fa fb n
    exact int_pfVal (h1.trans (pfVal_int h2))

theorem seenMem_mono {seen : List PyVal} {o o2 : PyVal} (h : seenMem seen o = true)
    (he : pyEq o o2 = true) : seenMem seen o2 = true := by
  unfold seenMem at h ⊢
  rcases List.any_eq_true.mp h with ⟨x, hx, hxe⟩
  exact List.any_eq_true.mpr ⟨x, hx, pyEq_trans hxe he⟩

theorem seenMem_append (s1 s2 : List PyVal) (o : PyVal) :
    seenMem (s1 ++ s2) o = (seenMem s1 o || seenMem s2 o) := by
  simp [seenMem, List.any_append]

theorem seenMem_single (x o : PyVal) : seenMem [x] o = pyEq x o := by
  simp [seenMem]

theorem dedupGo_spec (rows : List Row) : ∀ (seen : List PyVal) (acc : List Row) (dup : ℕ),
    (∀ r ∈ rows, (rget r "order_id").isSome) →
    ∃ tail dcount, dedupGo seen acc dup rows = some (acc ++ tail, dup + dcount) ∧
      tail.Sublist rows ∧
      tail.length + dcount = rows.length ∧
      (∀ oid, tail.any (fun r => rowOidIs r oid) =
        (rows.any (fun r => rowOidIs r oid) && !seenMem seen oid)) ∧
      (∀ r2 ∈ tail, ∃ pre post oid, rows = pre ++ r2 :: post ∧
        rget r2 "order_id" = some oid ∧ (∀ r3 ∈ pre, rowOidIs r3 oid = false)) ∧
      (∀ r2 ∈ tail, ∀ oid, rget r2 "order_id" = some oid → seenMem seen oid = false) ∧
      List.Pairwise oidDistinct tail := by
  induction rows with
  | nil =>
    intro seen acc dup _
    exact ⟨[], 0, by simp [dedupGo], List.Sublist.refl [], by simp, by simp, by simp, by simp,
      List.Pairwise.nil⟩
  | cons r rs ih =>
    intro seen acc dup hwf
    obtain ⟨oid_r, hoid⟩ := Option.isSome_iff_exists.mp (hwf r (by simp))
    have hwf2 : ∀ x ∈ rs, (rget x "order_id").isSome := fun x hx => hwf x (by simp [hx])
    by_cases hmem : seenMem seen oid_r
    · obtain ⟨tail, dcount, heq, hsub, hlen, hany, hfirst, hfresh, hpw⟩ :=
        ih seen acc (dup + 1) hwf2
      refine ⟨tail, dcount + 1, ?_, List.Sublist.cons r hsub,
        by simp only [List.length_cons]; omega, ?_, ?_, hfresh, hpw⟩
      · simp only [dedupGo, hoid, hmem, if_true, heq]
        have h9 : dup + 1 + dcount = dup + (dcount + 1) := by omega
        rw [h9]
      · intro oid
        rw [hany oid]
        by_cases hro : rowOidIs r oid
        · have hpe : pyEq oid_r oid = true := by
            unfold rowOidIs at hro
            rw [hoid] at hro
            exact hro
          have hso : seenMem seen oid = true := seenMem_mono hmem hpe
          simp [hso]
        · simp [List.any_cons, hro]
      · intro r2 hr2
        obtain ⟨pre, post, oid2, hrows, hoid2, hpre⟩ := hfirst r2 hr2
        refine ⟨r :: pre, post, oid2, by simp [hrows], hoid2, ?_⟩
        intro r3 hr3
        rcases List.mem_cons.mp hr3 with rfl | hr3
        · unfold rowOidIs
          rw [hoid]
          by_cases hpe : pyEq oid_r oid2
          · exact absurd (seenMem_mono hmem hpe) (by simp [hfresh r2 hr2 oid2 hoid2])
          · simp [hpe]
        · exact hpre r3 hr3
    · obtain ⟨tail, dcount, heq, hsub, hlen, hany, hfirst, hfresh, hpw⟩ :=
        ih (seen ++ [oid_r]) (acc ++ [r]) dup hwf2
      have hmemf : seenMem seen oid_r = false := by simpa using hmem
      refine ⟨r :: tail, dcount, ?_, List.Sublist.cons₂ r hsub,
        by simp only [List.length_cons]; omega, ?_, ?_, ?_, ?_⟩
      · simp only [dedupGo, hoid, hmemf, Bool.false_eq_true, if_false, heq]
        congr 1
        simp
      · intro oid
        have ha := hany oid
        rw [seenMem_append, seenMem_single] at ha
        by_cases hpe : pyEq oid_r oid
        · have hro : rowOidIs r oid = true := by
            unfold rowOidIs
            rw [hoid]
            exact hpe
          have hso : seenMem seen oid = false := by
            by_cases hso : seenMem seen oid
            · exact absurd (seenMem_mono hso (pyEq_symm hpe)) (by simp [hmemf])
            · simpa using hso
          simp [List.any_cons, hro, hso]
        · have hro : rowOidIs r oid = false := by
            unfold rowOidIs
            rw [hoid]
            simp [hpe]
          simp only [List.any_cons, hro, Bool.false_or, ha, hpe]
          simp
      · intro r2 hr2
        rcases List.mem_cons.mp hr2 with rfl | hr2
        · exact ⟨[], rs, oid_r, rfl, hoid, by simp⟩
        · obtain ⟨pre, post, oid2, hrows, hoid2, hpre⟩ := hfirst r2 hr2
          have hf2 := hfresh r2 hr2 oid2 hoid2
          rw [seenMem_append, seenMem_single, Bool.or_eq_false_iff] at hf2
          refine ⟨r :: pre, post, oid2, by simp [hrows], hoid2, ?_⟩
          intro r3 hr3
          rcases List.mem_cons.mp hr3 with rfl | hr3
          · unfold rowOidIs
            rw [hoid]
            exact hf2.2
          · exact hpre r3 hr3
      · intro r2 hr2 oid hroid
        rcases List.mem_cons.mp hr2 with rfl | hr2
        · rw [hoid] at hroid
          have : oid_r = oid := Option.some.inj hroid
          subst this
          exact hmemf
        · have hf2 := hfresh r2 hr2 oid hroid
          rw [seenMem_append, Bool.or_eq_false_iff] at hf2
          exact hf2.1
      · refine List.pairwise_cons.mpr ⟨?_, hpw⟩
        intro r2 hr2 x y hx hy
        rw [hoid] at hx
        have : oid_r = x := Option.some.inj hx
        subst this
        have hf2 := hfresh r2 hr2 y hy
        rw [seenMem_append, seenMem_single, Bool.or_eq_false_iff] at hf2
        exact hf2.2

theorem dedupGo_distinct (l : List Row) : ∀ (seen : List PyVal) (acc : List Row) (dup : ℕ),
    (∀ r ∈ l, ∀ oid, rget r "order_id" = some oid → seenMem seen oid = false) →
    List.Pairwise oidDistinct l →
    (∀ r ∈ l, (rget r "order_id").isSome) →
    dedupGo seen acc dup l = some (acc ++ l, dup) := by
  induction l with
  | nil => intro seen acc dup _ _ _; simp [dedupGo]
  | cons r rs ih =>
    intro seen acc dup hseen hpw hwf
    obtain ⟨oid, hoid⟩ := Option.isSome_iff_exists.mp (hwf r (by simp))
    have hm : seenMem seen oid = false := hseen r (by simp) oid hoid
    obtain ⟨hhead, htail⟩ := List.pairwise_cons.mp hpw
    simp only [dedupGo, hoid, hm, Bool.false_eq_true, if_false]
    rw [ih (seen ++ [oid]) (acc ++ [r]) dup ?_ htail (fun r2 hr2 => hwf r2 (by simp [hr2]))]
    · simp
    · intro r2 hr2 oid2 hoid2
      rw [seenMem_append, seenMem_single, Bool.or_eq_false_iff]
      exact ⟨hseen r2 (by simp [hr2]) oid2 hoid2, hhead r2 hr2 oid oid2 hoid hoid2⟩

/-- C3: check_duplicates keeps the first occurrence of each order_id, drops
and counts later occurrences (survivors plus duplicate count partition the
input), the surviving records appear in first-seen order (they form a sublist
of the input in which each survivor is the first row bearing its order_id),
every order_id of the input is still represented, the surviving order_id
values are pairwise distinct, and deduplication is idempotent: running it on
its own output returns the same records with zero duplicates removed. -/
theorem check_duplicates_spec (rows : List Row)
    (hwf : ∀ r ∈ rows, (rget r "order_id").isSome) :
    ∃ uniq dcount, check_duplicates rows = some (uniq, dcount) ∧
      uniq.Sublist rows ∧
      uniq.length + dcount = rows.length ∧
      (∀ oid, uniq.any (fun r => rowOidIs r oid) = rows.any (fun r => rowOidIs r oid)) ∧
      (∀ r2 ∈ uniq, ∃ pre post oid, rows = pre ++ r2 :: post ∧
        rget r2 "order_id" = some oid ∧ (∀ r3 ∈ pre, rowOidIs r3 oid = false)) ∧
      List.Pairwise oidDistinct uniq ∧
      check_duplicates uniq = some (uniq, 0) := by
  obtain ⟨tail, dcount, heq, hsub, hlen, hany, hfirst, hfresh, hpw⟩ :=
    dedupGo_spec rows [] [] 0 hwf
  refine ⟨tail, dcount, by simpa [check_duplicates] using heq, hsub, hlen, ?_, hfirst, hpw, ?_⟩
  · intro oid
    have h := hany oid
    simpa [seenMem] using h
  · have hwfu : ∀ r ∈ tail, (rget r "order_id").isSome := fun r hr => hwf r (hsub.subset hr)
    have h := dedupGo_distinct tail [] [] 0 (fun r2 _ oid _ => by simp [seenMem]) hpw hwfu
    simpa [check_duplicates] using h

theorem check_duplicates_spec_witness :
    (∀ r ∈ dupRows, (rget r "order_id").isSome) ∧
    ∃ uniq dcount, check_duplicates dupRows = some (uniq, dcount) ∧
      uniq.Sublist dupRows ∧
      uniq.length + dcount = dupRows.length ∧
      (∀ oid, uniq.any (fun r => rowOidIs r oid) = dupRows.any (fun r => rowOidIs r oid)) ∧
      (∀ r2 ∈ uniq, ∃ pre post oid, dupRows = pre ++ r2 :: post ∧
        rget r2 "order_id" = some oid ∧ (∀ r3 ∈ pre, rowOidIs r3 oid = false)) ∧
      List.Pairwise oidDistinct uniq ∧
      check_duplicates uniq = some (uniq, 0) :=
  ⟨by decide, check_duplicates_spec dupRows (by decide)⟩

theorem dictGet_mem {lk : List (PyVal × Row)} {pid : PyVal} {p : Row}
    (h : dictGet lk pid = some p) : ∃ e ∈ lk, e.2 = p := by
  unfold dictGet at h
  rcases hfind : List.find? (fun e => pyEq e.1 pid) lk with _ | e
  · rw [hfind] at h
    simp at h
  · rw [hfind] at h
    simp at h
    exact ⟨e, List.mem_of_find?_eq_some hfind, h⟩

theorem append_cons_eq {α : Type} (acc : List α) (x : α) (t : List α) :
    acc ++ x :: t = (acc ++ [x]) ++ t := by simp

theorem enrichGo_spec (lk : List (PyVal × Row))
    (hcat : ∀ e ∈ lk, (∃ nm, rget e.2 "name" = some nm) ∧
      (∃ cg, rget e.2 "category" = some cg) ∧
      (∃ st, rget e.2 "stock" = some st ∧ (toNum st).isSome)) :
    ∀ (rows : List Row) (missing : List PyVal) (acc : List Row),
    (∀ r ∈ rows, (rget r "product_id").isSome) →
    List.Pairwise (fun a b => pyEq a b = false) missing →
    ∃ tail missing2, enrichGo lk missing acc rows = some (acc ++ tail, missing2) ∧
      List.Forall₂ (enrichRel lk) rows tail ∧
      List.Pairwise (fun a b => pyEq a b = false) missing2 ∧
      (∀ pid, seenMem missing2 pid =
        (seenMem missing pid || rows.any (refsMissing lk pid))) := by
  intro rows
  induction rows with
  | nil =>
    intro missing acc _ hmpw
    exact ⟨[], missing, by simp [enrichGo], List.Forall₂.nil, hmpw, by simp⟩
  | cons r rs ih =>
    intro missing acc hwf hmpw
    obtain ⟨pid, hpid⟩ := Option.isSome_iff_exists.mp (hwf r (by simp))
    have hwf2 : ∀ x ∈ rs, (rget x "product_id").isSome := fun x hx => hwf x (by simp [hx])
    rcases hget : dictGet lk pid with _ | p
    · by_cases hsm : seenMem missing pid
      · obtain ⟨tail, missing2, heq, hrel, hpw2, hany⟩ := ih missing
          (acc ++ [rset (rset (rset r "product_name" (.str "UNKNOWN")) "category"
            (.str "UNKNOWN")) "current_stock" (.int (-1))]) hwf2 hmpw
        refine ⟨rset (rset (rset r "product_name" (.str "UNKNOWN")) "category"
            (.str "UNKNOWN")) "current_stock" (.int (-1)) :: tail, missing2, ?_, ?_, hpw2, ?_⟩
        · rw [append_cons_eq]
          simpa only [enrichGo, hpid, hget, hsm, if_true] using heq
        · refine List.Forall₂.cons ⟨pid, hpid, Or.inl ⟨hget, rfl, ?_, ?_, ?_⟩⟩ hrel
          · rw [rget_rset_ne _ _ (by decide), rget_rset_ne _ _ (by decide), rget_rset_self]
          · rw [rget_rset_ne _ _ (by decide), rget_rset_self]
          · exact rget_rset_self _ _ _
        · intro pid0
          rw [hany pid0]
          by_cases hpe : pyEq pid pid0
          · have hq : seenMem missing pid0 = true := seenMem_mono hsm hpe
            simp [hq]
          · simp [List.any_cons, refsMissing, hpid, hpe]
      · have hsmf : seenMem missing pid = false := by simpa using hsm
        have hmpw2 : List.Pairwise (fun a b => pyEq a b = false) (missing ++ [pid]) := by
          rw [List.pairwise_append]
          refine ⟨hmpw, List.pairwise_singleton _ _, ?_⟩
          intro x hx y hy
          rcases List.mem_singleton.mp hy with rfl
          have hall : ∀ z ∈ missing, ¬pyEq z y = true :=
            List.any_eq_false.mp (by simpa [seenMem] using hsmf)
          simpa using hall x hx
        obtain ⟨tail, missing2, heq, hrel, hpw2, hany⟩ := ih (missing ++ [pid])
          (acc ++ [rset (rset (rset r "product_name" (.str "UNKNOWN")) "category"
            (.str "UNKNOWN")) "current_stock" (.int (-1))]) hwf2 hmpw2
        refine ⟨rset (rset (rset r "product_name" (.str "UNKNOWN")) "category"
            (.str "UNKNOWN")) "current_stock" (.int (-1)) :: tail, missing2, ?_, ?_, hpw2, ?_⟩
        · rw [append_cons_eq]
          simpa only [enrichGo, hpid, hget, hsmf, Bool.false_eq_true, if_false] using heq
        · refine List.Forall₂.cons ⟨pid, hpid, Or.inl ⟨hget, rfl, ?_, ?_, ?_⟩⟩ hrel
          · rw [rget_rset_ne _ _ (by decide), rget_rset_ne _ _ (by decide), rget_rset_self]
          · rw [rget_rset_ne _ _ (by decide), rget_rset_self]
          · exact rget_rset_self _ _ _
        · intro pid0
          rw [hany pid0, seenMem_append, seenMem_single]
          simp only [List.any_cons, refsMissing, hpid, hget, Option.isNone_none, Bool.and_true]
          cases seenMem missing pid0 <;> cases pyEq pid pid0 <;> simp
    · obtain ⟨e, hmem, hep⟩ := dictGet_mem hget
      obtain ⟨⟨nm, hnm⟩, ⟨cg, hcg⟩, ⟨st, hst, hstn⟩⟩ := hcat e hmem
      rw [hep] at hnm hcg hst
      obtain ⟨stv, hstv⟩ := Option.isSome_iff_exists.mp hstn
      obtain ⟨tail, missing2, heq, hrel, hpw2, hany⟩ := ih missing
        (acc ++ [rset (rset (rset r "product_name" nm) "category" cg) "current_stock" st])
        hwf2 hmpw
      refine ⟨rset (rset (rset r "product_name" nm) "category" cg) "current_stock" st :: tail,
        missing2, ?_, ?_, hpw2, ?_⟩
      · rw [append_cons_eq]
        simpa only [enrichGo, hpid, hget, hnm, hcg, hst, hstv] using heq
      · refine List.Forall₂.cons ⟨pid, hpid, Or.inr ⟨p, nm, cg, st, hget, hnm, hcg, hst, rfl,
          ?_, ?_, ?_⟩⟩ hrel
        · rw [rget_rset_ne _ _ (by decide), rget_rset_ne _ _ (by decide), rget_rset_self]
        · rw [rget_rset_ne _ _ (by decide), rget_rset_self]
        · exact rget_rset_self _ _ _
      · intro pid0
        rw [hany pid0]
        simp [List.any_cons, refsMissing, hpid, hget]

/-- C6: enrichment is a pure join against the built product lookup. Every
record whose product_id is absent from the catalog lookup gets exactly
product_name UNKNOWN, category UNKNOWN and current_stock -1, and its
product_id enters the missing set; the missing set holds pairwise-distinct
ids and contains an id exactly when some row references it and it is absent,
regardless of how many rows reference it (so each id appears once); for a
product_id present in the catalog, the entry's name, category and stock are
copied onto the record. -/
theorem enrich_with_products_spec (rows catalog : List Row) (lk : List (PyVal × Row))
    (hlk : product_lookup catalog = some lk)
    (hcat : ∀ e ∈ lk, (∃ nm, rget e.2 "name" = some nm) ∧
      (∃ cg, rget e.2 "category" = some cg) ∧
      (∃ st, rget e.2 "stock" = some st ∧ (toNum st).isSome))
    (hrows : ∀ r ∈ rows, (rget r "product_id").isSome) :
    ∃ enriched missing, enrich_with_products rows catalog = some (enriched, missing) ∧
      List.Forall₂ (enrichRel lk) rows enriched ∧
      List.Pairwise (fun a b => pyEq a b = false) missing ∧
      (∀ pid, seenMem missing pid = rows.any (refsMissing lk pid)) := by
  obtain ⟨tail, missing2, heq, hrel, hpw, hany⟩ :=
    enrichGo_spec lk hcat rows [] [] hrows List.Pairwise.nil
  refine ⟨tail, missing2, ?_, hrel, hpw, ?_⟩
  · unfold enrich_with_products
    rw [hlk]
    simpa using heq
  · intro pid
    simpa [seenMem] using hany pid

theorem enrich_with_products_spec_witness :
    ∃ enriched missing, enrich_with_products enrichRows enrichCatalog = some (enriched, missing) ∧
      List.Forall₂ (enrichRel enrichLk) enrichRows enriched ∧
      List.Pairwise (fun a b => pyEq a b = false) missing ∧
      (∀ pid, seenMem missing pid = enrichRows.any (refsMissing enrichLk pid)) :=
  enrich_with_products_spec enrichRows enrichCatalog enrichLk (by decide)
    (by
      intro e he
      simp only [enrichLk, List.mem_singleton] at he
      subst he
      exact ⟨⟨_, rfl⟩, ⟨_, rfl⟩, ⟨_, rfl, rfl⟩⟩)
    (by decide)

theorem apiLoop_succ (st : ℕ → ℕ) (a fuel : ℕ) :
    apiLoop st a (fuel + 1) = if st a == 200 then apiRecords else apiLoop st (a + 1) fuel := rfl

/-- C4: run_extraction aborts (returns an error) exactly when the primary CSV
source yields zero records; when the CSV is nonempty the result aggregates
all three sources whatever the JSON or API outcomes were, and failures of the
JSON source (missing file, parse error, missing key) or of the API source
(every retry attempt non-200) produce empty record lists rather than
exceptions. -/
theorem run_extraction_abort_spec :
    (∀ (csvFile : Option (List Row)) (jf : JsonFile) (st : ℕ → ℕ),
      (run_extraction csvFile jf st).isOk = !(extract_csv csvFile).isEmpty) ∧
    (∀ (csvFile : Option (List Row)) (jf : JsonFile) (st : ℕ → ℕ),
      (extract_csv csvFile).isEmpty = false →
      run_extraction csvFile jf st =
        Except.ok ⟨extract_csv csvFile, extract_json jf "products", extract_from_api st 3⟩) ∧
    (∀ (csvFile : Option (List Row)) (jf : JsonFile) (st : ℕ → ℕ),
      (extract_csv csvFile).isEmpty = true →
      run_extraction csvFile jf st = Except.error "Extraction failed: no sales data") ∧
    (∀ key, extract_json .missing key = [] ∧ extract_json .malformed key = []) ∧
    (∀ (entries : List (String × List Row)) (key : String),
      entries.find? (fun e => e.1 == key) = Option.none → extract_json (.obj entries) key = []) ∧
    (∀ st : ℕ → ℕ, (∀ a, 1 ≤ a → a ≤ 3 → st a ≠ 200) → extract_from_api st 3 = []) := by
  refine ⟨?_, ?_, ?_, ?_, ?_, ?_⟩
  · intro csvFile jf st
    unfold run_extraction
    cases h : (extract_csv csvFile).isEmpty <;> simp [h, Except.isOk, Except.toBool]
  · intro csvFile jf st h
    simp [run_extraction, h]
  · intro csvFile jf st h
    simp [run_extraction, h]
  · intro key
    exact ⟨rfl, rfl⟩
  · intro entries key h
    simp [extract_json, h]
  · intro st h
    have h1 : (st 1 == 200) = false := by simpa using h 1 (by omega) (by omega)
    have h2 : (st 2 == 200) = false := by simpa using h 2 (by omega) (by omega)
    have h3 : (st 3 == 200) = false := by simpa using h 3 (by omega) (by omega)
    unfold extract_from_api
    rw [show (3 : ℕ) = 2 + 1 from rfl, apiLoop_succ, h1]
    rw [if_neg (by simp), show (2 : ℕ) = 1 + 1 from rfl, apiLoop_succ, h2]
    rw [if_neg (by simp), show (1 : ℕ) = 0 + 1 from rfl, apiLoop_succ, h3]
    simp [apiLoop]

theorem run_extraction_abort_spec_witness :
    (run_extraction (some [sampleRow]) .malformed (fun _ => 503)).isOk =
      !(extract_csv (some [sampleRow])).isEmpty ∧
    run_extraction (some [sampleRow]) .malformed (fun _ => 503) =
      Except.ok ⟨extract_csv (some [sampleRow]), extract_json .malformed "products",
        extract_from_api (fun _ => 503) 3⟩ ∧
    run_extraction (some []) .missing (fun _ => 200) =
      Except.error "Extraction failed: no sales data" ∧
    (extract_json .missing "products" = [] ∧ extract_json .malformed "products" = []) ∧
    extract_json (.obj [("sales", [sampleRow])]) "products" = [] ∧
    extract_from_api (fun _ => 503) 3 = [] :=
  ⟨run_extraction_abort_spec.1 (some [sampleRow]) .malformed (fun _ => 503),
   run_extraction_abort_spec.2.1 (some [sampleRow]) .malformed (fun _ => 503) (by decide),
   run_extraction_abort_spec.2.2.1 (some []) .missing (fun _ => 200) (by decide),
   run_extraction_abort_spec.2.2.2.1 "products",
   run_extraction_abort_spec.2.2.2.2.1 [("sales", [sampleRow])] "products" (by decide),
   run_extraction_abort_spec.2.2.2.2.2 (fun _ => 503) (fun a _ _ => by simp)⟩

/-- C9: run_pipeline executes Extract, Transform, Load strictly in that
order with no orchestration-level retries. Whatever the loader environment
holds, a failed extraction yields the constant stats with phase_failed
extraction, one error and every later count zero (so no later stage is
attempted); a transformation failure still reports the extraction count; a
loading failure still reports extraction and transformation counts; and a
fully successful run reports every stage's counts with zero errors and
phase_failed None. -/
theorem run_pipeline_stage_sequencing :
    (∀ (env : PipelineEnv) (e : String),
      run_extraction env.csvFile env.jsonFile env.apiStatuses = Except.error e →
      run_pipeline env = ⟨0, 0, 0, 0, 1, some "extraction"⟩) ∧
    (∀ (env : PipelineEnv) (ed : ExtractedData),
      run_extraction env.csvFile env.jsonFile env.apiStatuses = Except.ok ed →
      run_transformation ed = Option.none →
      run_pipeline env = ⟨ed.sales_data.length, 0, 0, 0, 1, some "transformation"⟩) ∧
    (∀ (env : PipelineEnv) (ed : ExtractedData) (cleaned : List Row),
      run_extraction env.csvFile env.jsonFile env.apiStatuses = Except.ok ed →
      run_transformation ed = some cleaned →
      run_loading cleaned env.db0 env.dbOpenFail env.coin = Option.none →
      run_pipeline env = ⟨ed.sales_data.length, cleaned.length, 0, 0, 1, some "loading"⟩) ∧
    (∀ (env : PipelineEnv) (ed : ExtractedData) (cleaned : List Row) (tbl : Table)
      (ins skp : ℕ),
      run_extraction env.csvFile env.jsonFile env.apiStatuses = Except.ok ed →
      run_transformation ed = some cleaned →
      run_loading cleaned env.db0 env.dbOpenFail env.coin = some (tbl, ins, skp) →
      run_pipeline env = ⟨ed.sales_data.length, cleaned.length, ins, skp, 0, Option.none⟩) := by
  refine ⟨?_, ?_, ?_, ?_⟩
  · intro env e h
    simp [run_pipeline, h]
  · intro env ed h1 h2
    simp [run_pipeline, h1, h2]
  · intro env ed cleaned h1 h2 h3
    simp [run_pipeline, h1, h2, h3]
  · intro env ed cleaned tbl ins skp h1 h2 h3
    simp [run_pipeline, h1, h2, h3]

theorem run_pipeline_stage_sequencing_witness :
    run_pipeline envExtFail = ⟨0, 0, 0, 0, 1, some "extraction"⟩ ∧
    run_pipeline envTransFail = ⟨1, 0, 0, 0, 1, some "transformation"⟩ ∧
    run_pipeline envLoadFail = ⟨1, 1, 0, 0, 1, some "loading"⟩ ∧
    run_pipeline envOk = ⟨1, 1, 1, 0, 0, Option.none⟩ :=
  ⟨run_pipeline_stage_sequencing.1 envExtFail "Extraction failed: no sales data" rfl,
   run_pipeline_stage_sequencing.2.1 envTransFail ⟨[rowNoQuantity], [], apiRecords⟩
     rfl (by decide),
   run_pipeline_stage_sequencing.2.2.1 envLoadFail ⟨[sampleRow], [], apiRecords⟩
     [sampleEnriched] rfl (by decide) (by decide),
   run_pipeline_stage_sequencing.2.2.2 envOk ⟨[sampleRow], [], apiRecords⟩ [sampleEnriched]
     [(.str "SO-1001", sampleTuple)] 1 0 rfl (by decide) (by decide)⟩

/-- C2 counterexample: for a raw row whose field map lacks the quantity key,
validate_row raises KeyError (the except clause catches only ValueError and
TypeError), it does not return ok=false with issue invalid_quantity_type,
and the pipeline does not complete: the run aborts with phase_failed set to
transformation. -/
theorem missing_quantity_key_not_rejected :
    validate_row rowNoQuantity = .raised ∧
    validate_row rowNoQuantity ≠ .rejected ["invalid_quantity_type"] ∧
    (run_pipeline envC2bad).phase_failed = some "transformation" :=
  ⟨by decide, by decide, by decide⟩

/-- C2 amended: for every raw row whose quantity key is present with value
None (what csv.DictReader yields when the quantity column is missing for
that data row), validate_row returns ok=false with the fatal issue
invalid_quantity_type, and the pipeline still completes successfully with
the remaining rows; a row whose field map literally lacks the key instead
raises and fails the transformation phase. -/
theorem quantity_none_rejected :
    (∀ row : Row, truthy (pyGet row "order_id") = true →
      truthy (pyGet row "product_id") = true →
      rget row "quantity" = some PyVal.none →
      validate_row row = .rejected ["invalid_quantity_type"]) ∧
    run_pipeline envC2good = ⟨2, 1, 1, 0, 0, Option.none⟩ := by
  constructor
  · intro row ho hp hq
    simp [validate_row, ho, hp, hq, pyInt]
  · decide

theorem quantity_none_rejected_witness :
    validate_row rowQuantityNone = .rejected ["invalid_quantity_type"] ∧
    run_pipeline envC2good = ⟨2, 1, 1, 0, 0, Option.none⟩ :=
  ⟨quantity_none_rejected.1 rowQuantityNone (by decide) (by decide) (by decide),
   quantity_none_rejected.2⟩

theorem rowTuple_oid {row : Row} {kt : PyVal × List PyVal} (h : rowTuple row = some kt) :
    rget row "order_id" = some kt.1 := by
  rcases hoid : rget row "order_id" with _ | oid <;>
    rcases hrest : rowRest row with _ | rest <;>
      simp only [rowTuple, hoid, hrest] at h
  · exact absurd h (by simp)
  · exact absurd h (by simp)
  · exact absurd h (by simp)
  · rw [← Option.some.inj h]

theorem keyMem_append (a b : Table) (o : PyVal) :
    keyMem (a ++ b) o = (keyMem a o || keyMem b o) := by
  simp [keyMem, List.map_append, seenMem_append]

theorem keyMem_mono {t : Table} {o o2 : PyVal} (h : keyMem t o = true)
    (he : pyEq o o2 = true) : keyMem t o2 = true := seenMem_mono h he

theorem keyMem_single (kt : PyVal × List PyVal) (o : PyVal) :
    keyMem [kt] o = pyEq kt.1 o := by
  simp [keyMem, seenMem_single]

theorem load_batch_go_success (b : List Row) : ∀ (committed pending : Table) (ins skp : ℕ),
    (∀ r ∈ b, (rowTuple r).isSome) →
    ∃ p i s, load_batch_go committed pending ins skp b = some (p, i, s) := by
  induction b with
  | nil => intro c p i s _; exact ⟨p, i, s, rfl⟩
  | cons r rs ih =>
    intro c p i s hwf
    obtain ⟨kt, hkt⟩ := Option.isSome_iff_exists.mp (hwf r (by simp))
    have hwf2 : ∀ x ∈ rs, (rowTuple x).isSome := fun x hx => hwf x (by simp [hx])
    by_cases hk : keyMem (c ++ p) kt.1
    · obtain ⟨p2, i2, s2, h2⟩ := ih c p i (s + 1) hwf2
      exact ⟨p2, i2, s2, by simp [load_batch_go, hkt, hk, h2]⟩
    · obtain ⟨p2, i2, s2, h2⟩ := ih c (p ++ [kt]) (i + 1) s hwf2
      exact ⟨p2, i2, s2, by simp [load_batch_go, hkt, hk, h2]⟩

theorem load_batch_go_keys (b : List Row) : ∀ (c pd : Table) (i s : ℕ)
    (p : Table) (i2 s2 : ℕ),
    load_batch_go c pd i s b = some (p, i2, s2) →
    ∀ oid, keyMem (c ++ p) oid =
      (keyMem (c ++ pd) oid || b.any (fun r => rowOidIs r oid)) := by
  induction b with
  | nil =>
    intro c pd i s p i2 s2 h oid
    simp only [load_batch_go, Option.some.injEq] at h
    cases h
    simp
  | cons r rs ih =>
    intro c pd i s p i2 s2 h oid
    rcases hkt : rowTuple r with _ | kt
    · simp [load_batch_go, hkt] at h
    · have hro : rget r "order_id" = some kt.1 := rowTuple_oid hkt
      by_cases hk : keyMem (c ++ pd) kt.1
      · simp only [load_batch_go, hkt, hk, if_true] at h
        rw [ih c pd i (s + 1) p i2 s2 h oid]
        simp only [List.any_cons]
        by_cases hpe : pyEq kt.1 oid
        · have hq : keyMem (c ++ pd) oid = true := keyMem_mono hk hpe
          simp [hq]
        · have hro2 : rowOidIs r oid = false := by
            unfold rowOidIs
            rw [hro]
            simp [hpe]
          simp [hro2]
      · simp only [load_batch_go, hkt] at h
        rw [if_neg hk] at h
        rw [ih c (pd ++ [kt]) (i + 1) s p i2 s2 h oid]
        have hroe : rowOidIs r oid = pyEq kt.1 oid := by
          unfold rowOidIs
          rw [hro]
        simp only [keyMem_append, keyMem_single, List.any_cons, hroe]
        cases keyMem c oid <;> cases keyMem pd oid <;> cases pyEq kt.1 oid <;> simp

theorem load_batch_success (b : List Row) (c : Table)
    (hwf : ∀ r ∈ b, (rowTuple r).isSome) :
    ∃ p i s, load_batch c b = some (p, i, s) :=
  load_batch_go_success b c [] 0 0 hwf

theorem load_batch_keys {b : List Row} {c p : Table} {i s : ℕ}
    (h : load_batch c b = some (p, i, s)) :
    ∀ oid, keyMem (c ++ p) oid = (keyMem c oid || b.any (fun r => rowOidIs r oid)) := by
  intro oid
  have h2 := load_batch_go_keys b c [] 0 0 p i s h oid
  simpa using h2

theorem loadLoop_false_params (l : List (List Row)) : ∀ (t t2 k k2 : ℕ) (c : Table) (i s : ℕ),
    loadLoop false t k c i s l = loadLoop false t2 k2 c i s l := by
  induction l with
  | nil => intro t t2 k k2 c i s; rfl
  | cons b bs ih =>
    intro t t2 k k2 c i s
    simp only [loadLoop, simulate_connection_issue, Bool.and_false, Bool.false_eq_true,
      if_false]
    rcases hlb : load_batch c b with _ | ⟨pnd, bin, bsk⟩
    · rfl
    · exact ih t t2 (k + 1) (k2 + 1) (c ++ pnd) (i + bin) (s + bsk)

theorem loadLoop_false_spec (l : List (List Row)) : ∀ (t k : ℕ) (c : Table) (i s : ℕ),
    (∀ b ∈ l, ∀ r ∈ b, (rowTuple r).isSome) →
    ∃ tbl ins skp, loadLoop false t k c i s l = some (tbl, i + ins, s + skp) ∧
      (∀ oid, keyMem tbl oid =
        (keyMem c oid || l.any (fun b => b.any (fun r => rowOidIs r oid)))) := by
  induction l with
  | nil =>
    intro t k c i s _
    exact ⟨c, 0, 0, by simp [loadLoop], by simp⟩
  | cons b bs ih =>
    intro t k c i s hwf
    obtain ⟨p, i1, s1, hlb⟩ := load_batch_success b c (fun r hr => hwf b (by simp) r hr)
    obtain ⟨tbl, ins, skp, heq, hkeys⟩ := ih t (k + 1) (c ++ p) (i + i1) (s + s1)
      (fun b2 hb2 r hr => hwf b2 (by simp [hb2]) r hr)
    refine ⟨tbl, i1 + ins, s1 + skp, ?_, ?_⟩
    · simp only [loadLoop, simulate_connection_issue, Bool.and_false, Bool.false_eq_true,
        if_false, hlb]
      rw [heq, show i + i1 + ins = i + (i1 + ins) from by omega,
        show s + s1 + skp = s + (s1 + skp) from by omega]
    · intro oid
      rw [hkeys oid, load_batch_keys hlb oid]
      simp [List.any_cons, Bool.or_assoc]

theorem loadLoop_true_eq (l : List (List Row)) : ∀ (t k : ℕ) (c : Table) (i s : ℕ),
    k + l.length = t + 1 → l ≠ [] →
    (∀ b ∈ l.dropLast, ∀ r ∈ b, (rowTuple r).isSome) →
    loadLoop true t k c i s l = loadLoop false t 1 c i s l.dropLast := by
  induction l with
  | nil => intro t k c i s _ hne _; exact absurd rfl hne
  | cons b bs ih =>
    intro t k c i s hk hne hwf
    rcases bs with _ | ⟨b2, bs2⟩
    · have hkt : k = t := by simp at hk; omega
      simp [loadLoop, simulate_connection_issue, hkt]
    · have hklt : (k == t) = false := by
        simp only [List.length_cons] at hk
        simp only [beq_eq_false_iff_ne, ne_eq]
        omega
      obtain ⟨p, i1, s1, hlb⟩ := load_batch_success b c
        (fun r hr => hwf b (by rw [List.dropLast_cons₂]; simp) r hr)
      rw [List.dropLast_cons₂]
      rw [show loadLoop true t k c i s (b :: b2 :: bs2) =
          (if simulate_connection_issue true k t then some (c, i, s)
           else match load_batch c b with
             | Option.none => Option.none
             | some (pending, bin, bsk) =>
               loadLoop true t (k + 1) (c ++ pending) (i + bin) (s + bsk) (b2 :: bs2))
          from rfl]
      rw [show loadLoop false t 1 c i s (b :: (b2 :: bs2).dropLast) =
          (if simulate_connection_issue false 1 t then some (c, i, s)
           else match load_batch c b with
             | Option.none => Option.none
             | some (pending, bin, bsk) =>
               loadLoop false t (1 + 1) (c ++ pending) (i + bin) (s + bsk) (b2 :: bs2).dropLast)
          from rfl]
      rw [if_neg (by simp [simulate_connection_issue, hklt]),
        if_neg (by simp [simulate_connection_issue])]
      simp only [hlb]
      rw [ih t (k + 1) (c ++ p) (i + i1) (s + s1)
        (by simp only [List.length_cons] at hk ⊢; omega) (by simp)
        (fun b3 hb3 r hr =>
          hwf b3 (by rw [List.dropLast_cons₂]; exact List.mem_cons_of_mem b hb3) r hr)]
      exact loadLoop_false_params (b2 :: bs2).dropLast t t 1 2 (c ++ p) (i + i1) (s + s1)

theorem toBatches_nil : toBatches [] = [] := rfl

theorem toBatches_cons (l : List Row) (h : l ≠ []) :
    toBatches l = l.take BATCH_SIZE :: toBatches (l.drop BATCH_SIZE) := by
  have hl : 0 < l.length := List.length_pos.mpr h
  unfold toBatches
  have hcount : (l.length + BATCH_SIZE - 1) / BATCH_SIZE =
      ((l.drop BATCH_SIZE).length + BATCH_SIZE - 1) / BATCH_SIZE + 1 := by
    rw [List.length_drop]
    simp only [BATCH_SIZE]
    omega
  rw [hcount, List.range_succ_eq_map, List.map_cons, List.map_map]
  congr 1
  apply List.map_congr_left
  intro j _
  simp only [Function.comp_apply, List.drop_drop]
  congr 2
  simp only [Nat.succ_eq_add_one]
  ring

theorem toBatches_ne_nil (l : List Row) (h : l ≠ []) : toBatches l ≠ [] := by
  rw [toBatches_cons l h]
  simp

theorem toBatches_mem_subset (l : List Row) (b : List Row) (hb : b ∈ toBatches l) :
    ∀ r ∈ b, r ∈ l := by
  unfold toBatches at hb
  rcases List.mem_map.mp hb with ⟨j, _, rfl⟩
  intro r hr
  exact List.drop_subset _ _ (List.take_subset _ _ hr)

theorem dropLast_toBatches_full_aux : ∀ (n : ℕ) (l : List Row), l.length ≤ n →
    ∀ b ∈ (toBatches l).dropLast, b.length = BATCH_SIZE := by
  intro n
  induction n with
  | zero =>
    intro l hl b hb
    have h0 : l = [] := List.eq_nil_of_length_eq_zero (Nat.le_zero.mp hl)
    subst h0
    rw [toBatches_nil] at hb
    simp at hb
  | succ n ih =>
    intro l hl b hb
    by_cases h : l = []
    · subst h
      rw [toBatches_nil] at hb
      simp at hb
    · rw [toBatches_cons l h] at hb
      rcases h2 : toBatches (l.drop BATCH_SIZE) with _ | ⟨x, xs⟩
      · rw [h2] at hb
        simp at hb
      · rw [h2, List.dropLast_cons₂] at hb
        rcases List.mem_cons.mp hb with rfl | hb2
        · have hd : l.drop BATCH_SIZE ≠ [] := by
            intro hc
            rw [hc, toBatches_nil] at h2
            cases h2
          have hgt : BATCH_SIZE < l.length := by
            by_contra hc
            push_neg at hc
            exact hd (List.drop_eq_nil_of_le hc)
          simp only [List.length_take]
          omega
        · rw [← h2] at hb2
          exact ih (l.drop BATCH_SIZE)
            (by rw [List.length_drop]; simp only [BATCH_SIZE]; omega) b hb2

theorem dropLast_toBatches_full (l : List Row) :
    ∀ b ∈ (toBatches l).dropLast, b.length = BATCH_SIZE :=
  dropLast_toBatches_full_aux l.length l le_rfl

theorem toBatches_of_chunks : ∀ (bs : List (List Row)),
    (∀ b ∈ bs, b.length = BATCH_SIZE) → toBatches bs.flatten = bs := by
  intro bs
  induction bs with
  | nil => intro _; simp [toBatches_nil]
  | cons b bs2 ih =>
    intro h
    have hb : b.length = BATCH_SIZE := h b (by simp)
    have hbne : b ≠ [] := by
      intro hc
      rw [hc] at hb
      simp [BATCH_SIZE] at hb
    have hne : (b :: bs2).flatten ≠ [] := by
      rw [List.flatten_cons]
      intro hc
      exact hbne (List.append_eq_nil.mp hc).1
    rw [List.flatten_cons] at hne ⊢
    rw [toBatches_cons _ hne]
    congr 1
    · rw [← hb, List.take_left]
    · rw [← hb, List.drop_left]
      exact ih (fun b2 hb2 => h b2 (by simp [hb2]))

/-- C1: loader batch atomicity. run_loading splits the clean records into
consecutive batches of BATCH_SIZE (the last possibly shorter) and processes
them strictly in order. The simulated connection failure can only trigger on
the last batch k = n (simulate_connection_issue tests batch_num ==
total_batches before drawing), so with the failure draw true the loader
rolls back the in-flight last batch and stops: the returned (inserted,
skipped) counts and the committed table are exactly those of a normal run
over batches 1..k-1 alone, every order_id of batches 1..k-1 is durable in
the table, no row of batch k was inserted (an order_id appearing only in
batch k is absent), and no batch after k exists to be attempted. -/
theorem run_loading_batch_atomicity (rows : List Row) (db0 : Table)
    (hne : rows ≠ []) (hwf : ∀ r ∈ rows, (rowTuple r).isSome) :
    ∃ tbl ins skp,
      run_loading rows db0 false true = some (tbl, ins, skp) ∧
      run_loading ((toBatches rows).dropLast.flatten) db0 false false = some (tbl, ins, skp) ∧
      (∀ oid, keyMem tbl oid = (keyMem db0 oid ||
        (toBatches rows).dropLast.flatten.any (fun r => rowOidIs r oid))) := by
  have hwfb : ∀ b ∈ (toBatches rows).dropLast, ∀ r ∈ b, (rowTuple r).isSome := by
    intro b hb r hr
    exact hwf r (toBatches_mem_subset rows b
      ((List.dropLast_sublist (toBatches rows)).subset hb) r hr)
  obtain ⟨tbl, ins, skp, heq, hkeys⟩ :=
    loadLoop_false_spec ((toBatches rows).dropLast) (toBatches rows).length 1 db0 0 0 hwfb
  have hanyflat : ∀ oid, (toBatches rows).dropLast.any (fun b => b.any (fun r => rowOidIs r oid)) =
      (toBatches rows).dropLast.flatten.any (fun r => rowOidIs r oid) := by
    intro oid
    rw [List.any_flatten]
  refine ⟨tbl, 0 + ins, 0 + skp, ?_, ?_, ?_⟩
  · unfold run_loading
    rw [if_neg (by simp)]
    rw [loadLoop_true_eq (toBatches rows) (toBatches rows).length 1 db0 0 0 (by omega)
      (toBatches_ne_nil rows hne) hwfb]
    exact heq
  · unfold run_loading
    rw [if_neg (by simp)]
    rw [toBatches_of_chunks _ (dropLast_toBatches_full rows)]
    rw [loadLoop_false_params ((toBatches rows).dropLast)
      ((toBatches rows).dropLast.length) (toBatches rows).length 1 1 db0 0 0]
    exact heq
  · intro oid
    rw [hkeys oid, hanyflat oid]

theorem run_loading_batch_atomicity_witness :
    (loadRows ≠ [] ∧ ∀ r ∈ loadRows, (rowTuple r).isSome) ∧
    ∃ tbl ins skp,
      run_loading loadRows [] false true = some (tbl, ins, skp) ∧
      run_loading ((toBatches loadRows).dropLast.flatten) [] false false =
        some (tbl, ins, skp) ∧
      (∀ oid, keyMem tbl oid = (keyMem [] oid ||
        (toBatches loadRows).dropLast.flatten.any (fun r => rowOidIs r oid))) :=
  ⟨⟨by decide, by decide⟩, run_loading_batch_atomicity loadRows [] (by decide) (by decide)⟩
